import Mathlib

/-!
Verification of the AladdinChat message-routing server.

This development gives a shallow embedding of the per-room routing logic of
server.js and the persistence helpers of src/db.js:

* the send-message handler's input normalization, pause-gate decision and
  immediate-delivery recipient computation (server.js lines 260-345);
* the message status transitions of markDelivered / markRead
  (src/db.js lines 220-226);
* the held-message release performed when pause is toggled off
  (server.js lines 208-227);
* the per-room delay-queue / interjection state machine: the pending-entry
  timer callback (server.js lines 347-391), the start-interject flush
  (server.js lines 229-258) and the interject reset on an emergency send
  (server.js lines 393-401);
* the participant store of src/db.js (upsertParticipant, hasPrimaryHuman)
  together with the first-send identity binding (server.js lines 267-298),
  modelled at the granularity of the two awaited store calls so that
  interleavings of concurrent first sends are expressible;
* the permission guards of toggle-pause-ai and start-interject together with
  the provisional isPrimaryHuman flag set by join-room
  (server.js lines 122-179, 199-232).

Granularity: the Node.js process is single threaded, so each socket event
handler is modelled as one atomic transition, while timer callbacks are
separate transitions that may fire at any later point.  The binding model for
the primary-human race additionally splits the first-send handler at its
awaited store calls, because that race happens between the hasPrimaryHuman
read and the participant upsert.  Database timestamps are modelled by a
per-room logical clock: Date.now() is nondecreasing across sequentially
executed events, so insertion order agrees with createdAt order.

Machine integers do not overflow in any of the modelled code paths, so
numbers are modelled as Nat.
-/

namespace AladdinChat

/-- Participant role, the two values allowed by the role column check in
src/db.js and by the normalization on server.js lines 136, 194, 273, 301. -/
inductive Role where
  | human
  | ai
deriving DecidableEq, Repr

/-- Message status column values, src/db.js line 42. -/
inductive MessageStatus where
  | sent
  | delivered
  | read
deriving DecidableEq, Repr

/-- Numeric rank of a status in the order sent, delivered, read. -/
def statusRank : MessageStatus → Nat
  | .sent => 0
  | .delivered => 1
  | .read => 2

/-- markDelivered, src/db.js line 221: the UPDATE is guarded by
status = sent, so it only moves a sent message to delivered. -/
def markDeliveredOp (s : MessageStatus) : MessageStatus :=
  if s = MessageStatus.sent then MessageStatus.delivered else s

/-- markRead, src/db.js line 225: the UPDATE is unguarded and sets status
to read whatever the current status is. -/
def markReadOp (_ : MessageStatus) : MessageStatus :=
  MessageStatus.read

/-- A status-affecting event for one message: delivery completion
(server.js line 404) or a batched read acknowledgement (server.js line 416). -/
inductive StatusEvent where
  | deliverEvent
  | readEvent
deriving DecidableEq, Repr

/-- Apply one status event via the db.js update it triggers. -/
def applyStatusEvent (s : MessageStatus) : StatusEvent → MessageStatus
  | .deliverEvent => markDeliveredOp s
  | .readEvent => markReadOp s

/-- Run a sequence of status events from a starting status. -/
def runStatus (s : MessageStatus) (evs : List StatusEvent) : MessageStatus :=
  evs.foldl applyStatusEvent s

/-- Code points removed by JavaScript String.prototype.trim: tab, line feed,
vertical tab, form feed, carriage return, space, no-break space, ogham space
mark, the en-quad..hair-space range, line separator, paragraph separator,
narrow no-break space, medium mathematical space, ideographic space, BOM. -/
def jsWhitespaceCodes : List Nat :=
  [9, 10, 11, 12, 13, 32, 160, 0x1680,
   0x2000, 0x2001, 0x2002, 0x2003, 0x2004, 0x2005, 0x2006, 0x2007,
   0x2008, 0x2009, 0x200A, 0x2028, 0x2029, 0x202F, 0x205F, 0x3000, 0xFEFF]

/-- Whether a character is JavaScript trim whitespace. -/
def isJsWhitespace (c : Char) : Bool :=
  jsWhitespaceCodes.contains c.toNat

/-- JavaScript String.prototype.trim on a character list: strip whitespace
from both ends. -/
def jsTrim (s : List Char) : List Char :=
  ((s.dropWhile isJsWhitespace).reverse.dropWhile isJsWhitespace).reverse

/-- One socket currently joined to the room, as seen through
io.sockets.adapter plus its socket.data fields (server.js lines 141-149):
socket id, the role stored in socket.data.role, and the cached
socket.data.isPrimaryHuman flag. -/
structure Member where
  sid : Nat
  role : Role
  isPrimaryHuman : Bool
deriving DecidableEq, Repr

/-- Allowed task_state values, server.js line 305 and the db.js check
constraint. -/
def allowedTaskStates : List String :=
  ["none", "task_start", "task_update", "task_complete"]

/-- Pause-gate decision, server.js line 304:
heldForAi = room.pause_ai AND hasHuman AND senderRole is human AND
NOT emergencyInterject. -/
def heldForAiDecision (pauseAi hasHuman : Bool) (senderRole : Role)
    (emergencyInterject : Bool) : Bool :=
  pauseAi && hasHuman && decide (senderRole = Role.human) && !emergencyInterject

/-- Immediate-delivery recipient computation of send-message, server.js
lines 329-345: the sender socket always gets message-new (line 335), every
non-AI recipient gets it (lines 336-338), and AI recipients get it
immediately exactly when the sender is human and the message is either not
held or a human interjection (lines 340-345). -/
def sendEmitSids (members : List Member) (senderSid : Nat) (senderRole : Role)
    (heldForAi : Bool) (emergencyInterject : Bool) : List Nat :=
  let recipients := members.filter (fun m => decide (m.sid ≠ senderSid))
  let aiRecipients := recipients.filter (fun m => decide (m.role = Role.ai))
  let nonAiRecipients := recipients.filter (fun m => decide (m.role ≠ Role.ai))
  let isHumanInterjection := decide (senderRole = Role.human) && emergencyInterject
  let shouldSendToAiImmediately :=
    decide (senderRole = Role.human) && (!heldForAi || isHumanInterjection)
  senderSid :: nonAiRecipients.map (fun m => m.sid)
    ++ (if shouldSendToAiImmediately then aiRecipients.map (fun m => m.sid) else [])

/-- Context available to a send-message handler run: whether getRoomByCode
found the room, the room's pause flag, the sockets in the room, the sender's
socket id and normalized role, and the stored participant roles of the room
(getParticipantRoles). -/
structure SendContext where
  roomFound : Bool
  pauseAi : Bool
  members : List Member
  senderSid : Nat
  senderRole : Role
  participantRoles : List Role
deriving DecidableEq, Repr

/-- Payload of a send-message event, server.js line 260. -/
structure SendInput where
  text : List Char
  emergencyInterject : Bool
  taskState : String
  taskDescription : List Char
deriving DecidableEq, Repr

/-- The message row produced by saveMessage for this send, src/db.js
lines 137-165, with aiDelayed recording whether delayed_for_ai_until was
set (server.js line 307). -/
structure SavedMessage where
  body : List Char
  status : MessageStatus
  emergencyInterject : Bool
  heldForAi : Bool
  taskState : String
  taskDescription : Option (List Char)
  aiDelayed : Bool
deriving DecidableEq, Repr

/-- The send-message handler, server.js lines 260-345: reject empty or
all-whitespace text and unknown rooms (lines 261-265), normalize the body,
task state and task description (lines 300-306), compute the pause-gate
decision (lines 302-304), save the message (lines 310-322) and compute the
sockets that receive message-new immediately (lines 329-345). -/
def sendMessageHandler (ctx : SendContext) (inp : SendInput) :
    Option (SavedMessage × List Nat) :=
  if ctx.roomFound = false ∨ inp.text = [] ∨ jsTrim inp.text = [] then none
  else
    let cleanText := (jsTrim inp.text).take 5000
    let hasHuman := ctx.participantRoles.contains Role.human
    let heldForAi :=
      heldForAiDecision ctx.pauseAi hasHuman ctx.senderRole inp.emergencyInterject
    let safeTaskState :=
      if allowedTaskStates.contains inp.taskState then inp.taskState else "none"
    let safeTaskDescription := (jsTrim inp.taskDescription).take 500
    let message : SavedMessage :=
      { body := cleanText
        status := MessageStatus.sent
        emergencyInterject := inp.emergencyInterject
        heldForAi := heldForAi
        taskState := safeTaskState
        taskDescription :=
          if safeTaskDescription = [] then none else some safeTaskDescription
        aiDelayed := decide (ctx.senderRole = Role.ai) }
    some (message,
      sendEmitSids ctx.members ctx.senderSid ctx.senderRole heldForAi
        inp.emergencyInterject)

/-- Insert an element into a list so that the given numeric key stays
sorted; helper for the sort used to model ORDER BY created_at and the
JavaScript sort comparator on createdAt. -/
def insertByKey {α : Type} (key : α → Nat) (e : α) : List α → List α
  | [] => [e]
  | x :: xs => if key e ≤ key x then e :: x :: xs else x :: insertByKey key e xs

/-- Sort a list by a numeric key (insertion sort).  Models both the SQL
ORDER BY created_at ASC of the held-message release and the JavaScript
sort by createdAt of the interjection flush; in every state these lists
carry pairwise distinct timestamps, so any correct sort produces the same
result. -/
def sortByKey {α : Type} (key : α → Nat) : List α → List α
  | [] => []
  | x :: xs => insertByKey key x (sortByKey key xs)

/-- Sorting a list already sorted by the key returns it unchanged. -/
theorem sortByKey_eq_self {α : Type} (key : α → Nat) (l : List α)
    (h : l.Pairwise (fun a b => key a ≤ key b)) : sortByKey key l = l := by
  induction l with
  | nil => rfl
  | cons x xs ih =>
    rcases List.pairwise_cons.mp h with ⟨hx, hxs⟩
    have hsort : sortByKey key xs = xs := ih hxs
    cases xs with
    | nil => simp [sortByKey, insertByKey]
    | cons y ys =>
      have hle : key x ≤ key y := hx y (List.mem_cons_self y ys)
      simp [sortByKey, insertByKey] at *
      simp [hsort, insertByKey, hle]

/-- A stored message row of the room as far as the pause hold is concerned:
id, created_at and the held_for_ai flag. -/
structure StoredMessage where
  id : Nat
  createdAt : Nat
  heldForAi : Bool
deriving DecidableEq, Repr

/-- Held-message release performed by toggle-pause-ai when pause is turned
off, server.js lines 211-222: select the room's held messages ordered by
created_at, clear held_for_ai on all of them in one UPDATE, and emit a
single release-held-messages notice listing their ids in that order. -/
def releaseHeldMessages (msgs : List StoredMessage) : List StoredMessage × List Nat :=
  let held := sortByKey (fun m => m.createdAt) (msgs.filter (fun m => m.heldForAi))
  (msgs.map (fun m => if m.heldForAi then { m with heldForAi := false } else m),
   held.map (fun m => m.id))

/-- A pending delay-queue entry, server.js lines 350-381: message id, the
sender's socket id and the createdAt timestamp used by the flush sort.  The
releaseAt deadline and timer handle are represented by the timerFire event
below.  enqueuedWhileArmed is a ghost field recording the value of the
room's interjectActive flag at enqueue time; it is used only to state
invariants and does not influence any transition. -/
structure PendingEntry where
  messageId : Nat
  senderSid : Nat
  createdAt : Nat
  enqueuedWhileArmed : Bool
deriving DecidableEq, Repr

/-- Transient per-room routing state, server.js lines 442-447, extended
with the logical clock that stands for Date.now() and the message-id
sequence. -/
structure RoomRoutingState where
  clock : Nat
  interjectActive : Bool
  pending : List PendingEntry
deriving DecidableEq, Repr

/-- A fresh room's routing state, server.js line 444. -/
def initialRoomState : RoomRoutingState :=
  { clock := 0, interjectActive := false, pending := [] }

/-- Events that touch the delay-queue / interjection state of one room:
an accepted send-message (with the sending socket and its emergency flag),
the expiry of the 10-second timer of the pending entry for a message id,
and a start-interject request from a socket. -/
inductive RoutingEvent where
  | send (sender : Member) (emergency : Bool)
  | timerFire (messageId : Nat)
  | startInterject (caller : Member)
deriving DecidableEq, Repr

/-- Observable AI-delivery actions of the routing machine.  An aiRelease
records that the message was emitted to the listed AI sockets and that
markMessageReleased ran for it (released_at set); blockedByInterject tells
whether the release came from the interjection flush (which additionally
runs blockMessageByInterject, setting blocked_by_interject = TRUE) or from
the timer.  An interjectionDelivered records the immediate room-wide
delivery of a human emergency message. -/
inductive RoutingAction where
  | aiRelease (messageId : Nat) (recipients : List Nat) (blockedByInterject : Bool)
  | interjectionDelivered (messageId : Nat)
deriving DecidableEq, Repr

/-- The AI sockets of the room other than a given sender socket, as
computed by the member loops on server.js lines 240-247 and 362-369. -/
def aiRecipientSids (members : List Member) (senderSid : Nat) : List Nat :=
  (members.filter (fun m => decide (m.sid ≠ senderSid) && decide (m.role = Role.ai))).map
    (fun m => m.sid)

/-- One atomic transition of the room routing machine.

send (server.js lines 300-401): an AI-authored message with at least one AI
recipient is appended to the pending list with a 10-second timer
(lines 347-383); a human emergency send resets interjectActive and delivers
the interjection message immediately (lines 324-345, 393-401).  The message
id is the current clock value.

timerFire (the setTimeout callback, lines 357-380): remove the entry for
the message id from the pending list; if the room is not interject-active,
deliver to every AI socket except the original sender and mark the message
released.  A timer can only fire for an entry still in the pending list:
clearTimeout is called exactly when an entry is removed by the flush, and a
timer fires at most once.

startInterject (lines 229-258): ignored unless the caller's socket has role
human and the cached isPrimaryHuman flag; otherwise set interjectActive,
flush every pending entry in ascending createdAt order to every AI socket
except that entry's sender, marking each blocked-by-interject, and empty
the pending list. -/
def routingStep (members : List Member) (s : RoomRoutingState) :
    RoutingEvent → RoomRoutingState × List RoutingAction
  | .send sender emergency =>
    let mid := s.clock
    let pending1 :=
      if decide (sender.role = Role.ai)
          && !(aiRecipientSids members sender.sid).isEmpty then
        s.pending ++ [{ messageId := mid, senderSid := sender.sid,
                        createdAt := s.clock,
                        enqueuedWhileArmed := s.interjectActive }]
      else s.pending
    if decide (sender.role = Role.human) && emergency then
      ({ clock := s.clock + 1, interjectActive := false, pending := pending1 },
       [RoutingAction.interjectionDelivered mid])
    else
      ({ clock := s.clock + 1, interjectActive := s.interjectActive,
         pending := pending1 }, [])
  | .timerFire mid =>
    match s.pending.find? (fun e => decide (e.messageId = mid)) with
    | none => (s, [])
    | some e =>
      let pending1 := s.pending.filter (fun e2 => decide (e2.messageId ≠ mid))
      if s.interjectActive then
        ({ s with pending := pending1 }, [])
      else
        ({ s with pending := pending1 },
         [RoutingAction.aiRelease mid (aiRecipientSids members e.senderSid) false])
  | .startInterject caller =>
    if decide (caller.role = Role.human) && caller.isPrimaryHuman then
      let sorted := sortByKey (fun e => e.createdAt) s.pending
      ({ s with interjectActive := true, pending := [] },
       sorted.map (fun e =>
         RoutingAction.aiRelease e.messageId (aiRecipientSids members e.senderSid) true))
    else (s, [])

/-- Run a sequence of routing events, collecting the emitted actions in
order. -/
def routingRun (members : List Member) (s : RoomRoutingState) :
    List RoutingEvent → RoomRoutingState × List RoutingAction
  | [] => (s, [])
  | e :: es =>
    let step := routingStep members s e
    let rest := routingRun members step.1 es
    (rest.1, step.2 ++ rest.2)

/-- The message ids currently in the pending delay queue. -/
def pendingIds (s : RoomRoutingState) : List Nat :=
  s.pending.map (fun e => e.messageId)

/-- How many times a message id was released to AI recipients in an action
log (by timer expiry or interjection flush). -/
def releaseCount (log : List RoutingAction) (mid : Nat) : Nat :=
  (log.filter (fun a =>
    match a with
    | .aiRelease m _ _ => decide (m = mid)
    | _ => false)).length

theorem releaseCount_append (l1 l2 : List RoutingAction) (mid : Nat) :
    releaseCount (l1 ++ l2) mid = releaseCount l1 mid + releaseCount l2 mid := by
  simp [releaseCount, List.filter_append]

theorem releaseCount_nil (mid : Nat) : releaseCount [] mid = 0 := rfl

theorem releaseCount_release_self (mid : Nat) (r : List Nat) (b : Bool) :
    releaseCount [RoutingAction.aiRelease mid r b] mid = 1 := by
  simp [releaseCount]

theorem releaseCount_release_other {m mid : Nat} (h : m ≠ mid) (r : List Nat) (b : Bool) :
    releaseCount [RoutingAction.aiRelease m r b] mid = 0 := by
  simp [releaseCount, h]

theorem releaseCount_interjection (m mid : Nat) :
    releaseCount [RoutingAction.interjectionDelivered m] mid = 0 := by
  simp [releaseCount]

theorem releaseCount_map_flush (l : List PendingEntry) (f : PendingEntry → List Nat)
    (b : Bool) (mid : Nat) :
    releaseCount (l.map (fun e => RoutingAction.aiRelease e.messageId (f e) b)) mid
      = (l.map (fun e => e.messageId)).count mid := by
  induction l with
  | nil => rfl
  | cons x xs ih =>
    by_cases hx : x.messageId = mid
    · simp [releaseCount, List.count_cons, hx] at *
      omega
    · simp [releaseCount, List.count_cons, hx] at *
      simpa [releaseCount] using ih

/-- Invariant of the room routing machine, tying the state reached after a
sequence of events to the action log it produced.  enqueuedWhileArmed is
the ghost record of the interject flag at enqueue time. -/
structure RoutingInv (s : RoomRoutingState) (log : List RoutingAction) : Prop where
  idsBelowClock : ∀ e ∈ s.pending, e.messageId < s.clock
  createdEqId : ∀ e ∈ s.pending, e.createdAt = e.messageId
  pendingSorted : s.pending.Pairwise (fun a b => a.messageId < b.messageId)
  armedFlags : s.interjectActive = true → ∀ e ∈ s.pending, e.enqueuedWhileArmed = true
  releasedOnce : ∀ m, releaseCount log m ≤ 1
  releasedNotPending : ∀ m, 1 ≤ releaseCount log m → m ∉ pendingIds s
  releasedBelowClock : ∀ m, 1 ≤ releaseCount log m → m < s.clock

theorem routingInv_initial : RoutingInv initialRoomState [] := by
  constructor <;> simp [initialRoomState, pendingIds, releaseCount]

theorem pendingIds_nodup {s : RoomRoutingState}
    (h : s.pending.Pairwise (fun a b => a.messageId < b.messageId)) :
    (pendingIds s).Nodup := by
  have h2 : s.pending.Pairwise
      (fun a b => a.messageId ≠ b.messageId) :=
    h.imp (fun hlt => Nat.ne_of_lt hlt)
  simpa [pendingIds, List.Nodup, List.pairwise_map] using h2


theorem routingStep_send_emergency (members : List Member) (s : RoomRoutingState)
    (sender : Member) (emergency : Bool)
    (hem : (decide (sender.role = Role.human) && emergency) = true)
    (henq : (decide (sender.role = Role.ai)
      && !(aiRecipientSids members sender.sid).isEmpty) = false) :
    routingStep members s (RoutingEvent.send sender emergency)
      = ({ clock := s.clock + 1, interjectActive := false, pending := s.pending },
         [RoutingAction.interjectionDelivered s.clock]) := by
  simp [routingStep, henq, hem]

theorem routingStep_send_enqueue (members : List Member) (s : RoomRoutingState)
    (sender : Member) (emergency : Bool)
    (hem : (decide (sender.role = Role.human) && emergency) = false)
    (henq : (decide (sender.role = Role.ai)
      && !(aiRecipientSids members sender.sid).isEmpty) = true) :
    routingStep members s (RoutingEvent.send sender emergency)
      = ({ clock := s.clock + 1, interjectActive := s.interjectActive,
           pending := s.pending ++
             [{ messageId := s.clock, senderSid := sender.sid, createdAt := s.clock,
                enqueuedWhileArmed := s.interjectActive }] }, []) := by
  simp [routingStep, henq, hem]

theorem routingStep_send_plain (members : List Member) (s : RoomRoutingState)
    (sender : Member) (emergency : Bool)
    (hem : (decide (sender.role = Role.human) && emergency) = false)
    (henq : (decide (sender.role = Role.ai)
      && !(aiRecipientSids members sender.sid).isEmpty) = false) :
    routingStep members s (RoutingEvent.send sender emergency)
      = ({ clock := s.clock + 1, interjectActive := s.interjectActive,
           pending := s.pending }, []) := by
  simp [routingStep, henq, hem]

theorem routingStep_timer_gone (members : List Member) (s : RoomRoutingState)
    (mid : Nat)
    (hfind : s.pending.find? (fun e => decide (e.messageId = mid)) = none) :
    routingStep members s (RoutingEvent.timerFire mid) = (s, []) := by
  simp [routingStep, hfind]

theorem routingStep_timer_armed (members : List Member) (s : RoomRoutingState)
    (mid : Nat) (e2 : PendingEntry)
    (hfind : s.pending.find? (fun e => decide (e.messageId = mid)) = some e2)
    (harm : s.interjectActive = true) :
    routingStep members s (RoutingEvent.timerFire mid)
      = ({ s with pending := s.pending.filter (fun e => decide (e.messageId ≠ mid)) },
         []) := by
  simp [routingStep, hfind, harm]

theorem routingStep_timer_release (members : List Member) (s : RoomRoutingState)
    (mid : Nat) (e2 : PendingEntry)
    (hfind : s.pending.find? (fun e => decide (e.messageId = mid)) = some e2)
    (harm : s.interjectActive = false) :
    routingStep members s (RoutingEvent.timerFire mid)
      = ({ s with pending := s.pending.filter (fun e => decide (e.messageId ≠ mid)) },
         [RoutingAction.aiRelease mid (aiRecipientSids members e2.senderSid) false]) := by
  simp [routingStep, hfind, harm]

theorem routingStep_interject_denied (members : List Member) (s : RoomRoutingState)
    (caller : Member)
    (hguard : (decide (caller.role = Role.human) && caller.isPrimaryHuman) = false) :
    routingStep members s (RoutingEvent.startInterject caller) = (s, []) := by
  simp [routingStep, hguard]

theorem routingStep_interject_flush (members : List Member) (s : RoomRoutingState)
    (caller : Member)
    (hguard : (decide (caller.role = Role.human) && caller.isPrimaryHuman) = true)
    (hsorteq : sortByKey (fun e => e.createdAt) s.pending = s.pending) :
    routingStep members s (RoutingEvent.startInterject caller)
      = ({ s with interjectActive := true, pending := [] },
         s.pending.map (fun e =>
           RoutingAction.aiRelease e.messageId (aiRecipientSids members e.senderSid) true)) := by
  simp [routingStep, hguard, hsorteq]

theorem pendingSorted_createdAt {s : RoomRoutingState}
    (h2 : ∀ e ∈ s.pending, e.createdAt = e.messageId)
    (h3 : s.pending.Pairwise (fun a b => a.messageId < b.messageId)) :
    s.pending.Pairwise (fun a b => a.createdAt ≤ b.createdAt) := by
  refine List.Pairwise.imp_of_mem ?_ h3
  intro a b ha hb hlt
  rw [h2 a ha, h2 b hb]
  exact Nat.le_of_lt hlt

theorem routingInv_step (members : List Member) {s : RoomRoutingState}
    {log : List RoutingAction} (h : RoutingInv s log) :
    ∀ e : RoutingEvent,
      RoutingInv (routingStep members s e).1 (log ++ (routingStep members s e).2)
  | .send sender emergency => by
    rcases h with ⟨h1, h2, h3, h4, h5, h6, h7⟩
    by_cases hem : (decide (sender.role = Role.human) && emergency) = true
    · by_cases henq : (decide (sender.role = Role.ai)
          && !(aiRecipientSids members sender.sid).isEmpty) = true
      · simp [Bool.and_eq_true, decide_eq_true_eq] at hem henq
        rw [henq.1] at hem
        simp at hem
      · rw [Bool.not_eq_true] at henq
        rw [routingStep_send_emergency members s sender emergency hem henq]
        refine ⟨fun e he => Nat.lt_succ_of_lt (h1 e he), h2, h3, by simp, ?_, ?_, ?_⟩
        · intro m
          rw [releaseCount_append, releaseCount_interjection]
          simpa using h5 m
        · intro m hm
          rw [releaseCount_append, releaseCount_interjection] at hm
          simp at hm
          exact h6 m hm
        · intro m hm
          rw [releaseCount_append, releaseCount_interjection] at hm
          simp at hm
          exact Nat.lt_succ_of_lt (h7 m hm)
    · rw [Bool.not_eq_true] at hem
      by_cases henq : (decide (sender.role = Role.ai)
          && !(aiRecipientSids members sender.sid).isEmpty) = true
      · rw [routingStep_send_enqueue members s sender emergency hem henq]
        refine ⟨?_, ?_, ?_, ?_, ?_, ?_, ?_⟩
        · intro e he
          rcases List.mem_append.mp he with he | he
          · exact Nat.lt_succ_of_lt (h1 e he)
          · simp at he
            simp [he]
        · intro e he
          rcases List.mem_append.mp he with he | he
          · exact h2 e he
          · simp at he
            simp [he]
        · refine List.pairwise_append.mpr ⟨h3, by simp, ?_⟩
          intro a ha b hb
          simp at hb
          simp [hb]
          exact h1 a ha
        · intro harm e he
          have harm2 : s.interjectActive = true := harm
          rcases List.mem_append.mp he with he | he
          · exact h4 harm2 e he
          · simp at he
            simp [he, harm2]
        · intro m
          rw [releaseCount_append, releaseCount_nil]
          simpa using h5 m
        · intro m hm
          rw [releaseCount_append, releaseCount_nil] at hm
          simp at hm
          have hnp := h6 m hm
          have hlt := h7 m hm
          simp [pendingIds] at hnp ⊢
          exact ⟨hnp, by omega⟩
        · intro m hm
          rw [releaseCount_append, releaseCount_nil] at hm
          simp at hm
          exact Nat.lt_succ_of_lt (h7 m hm)
      · rw [Bool.not_eq_true] at henq
        rw [routingStep_send_plain members s sender emergency hem henq]
        refine ⟨fun e he => Nat.lt_succ_of_lt (h1 e he), h2, h3,
          fun harm => h4 harm, ?_, ?_, ?_⟩
        · intro m
          rw [releaseCount_append, releaseCount_nil]
          simpa using h5 m
        · intro m hm
          rw [releaseCount_append, releaseCount_nil] at hm
          simp at hm
          exact h6 m hm
        · intro m hm
          rw [releaseCount_append, releaseCount_nil] at hm
          simp at hm
          exact Nat.lt_succ_of_lt (h7 m hm)
  | .timerFire mid => by
    rcases h with ⟨h1, h2, h3, h4, h5, h6, h7⟩
    cases hfind : s.pending.find? (fun e => decide (e.messageId = mid)) with
    | none =>
      rw [routingStep_timer_gone members s mid hfind]
      exact ⟨h1, h2, h3, h4, by simpa using h5, by simpa using h6, by simpa using h7⟩
    | some e2 =>
      have he2mem : e2 ∈ s.pending := List.mem_of_find?_eq_some hfind
      have he2id : e2.messageId = mid := by
        have := List.find?_some hfind
        simpa using this
      have hfilter_sub : ∀ e ∈ s.pending.filter (fun e => decide (e.messageId ≠ mid)),
          e ∈ s.pending := fun e he => List.mem_of_mem_filter he
      have hnotin : ∀ m, m ∉ pendingIds s →
          m ∉ (s.pending.filter (fun e => decide (e.messageId ≠ mid))).map
            (fun e => e.messageId) := by
        intro m hm hcon
        apply hm
        simp [pendingIds] at hcon ⊢
        rcases hcon with ⟨e, ⟨he, _⟩, hid⟩
        exact ⟨e, he, hid⟩
      by_cases harm : s.interjectActive = true
      · rw [routingStep_timer_armed members s mid e2 hfind harm]
        refine ⟨fun e he => h1 e (hfilter_sub e he),
          fun e he => h2 e (hfilter_sub e he),
          h3.filter _,
          fun _ e he => h4 harm e (hfilter_sub e he), ?_, ?_, ?_⟩
        · intro m
          simpa using h5 m
        · intro m hm
          simp at hm
          exact hnotin m (h6 m hm)
        · intro m hm
          simp at hm
          exact h7 m hm
      · rw [Bool.not_eq_true] at harm
        rw [routingStep_timer_release members s mid e2 hfind harm]
        have hmidpend : mid ∈ pendingIds s := by
          simp [pendingIds]
          exact ⟨e2, he2mem, he2id⟩
        have hmidzero : releaseCount log mid = 0 := by
          by_contra hc
          exact h6 mid (by omega) hmidpend
        refine ⟨fun e he => h1 e (hfilter_sub e he),
          fun e he => h2 e (hfilter_sub e he),
          h3.filter _,
          by simp [harm], ?_, ?_, ?_⟩
        · intro m
          rw [releaseCount_append]
          by_cases hmm : mid = m
          · rw [← hmm, hmidzero, releaseCount_release_self]
          · rw [releaseCount_release_other hmm]
            simpa using h5 m
        · intro m hm
          rw [releaseCount_append] at hm
          by_cases hmm : mid = m
          · subst hmm
            simp [pendingIds, List.mem_filter]
          · rw [releaseCount_release_other hmm] at hm
            simp at hm
            exact hnotin m (h6 m hm)
        · intro m hm
          rw [releaseCount_append] at hm
          by_cases hmm : mid = m
          · subst hmm
            exact he2id ▸ h1 e2 he2mem
          · rw [releaseCount_release_other hmm] at hm
            simp at hm
            exact h7 m hm
  | .startInterject caller => by
    rcases h with ⟨h1, h2, h3, h4, h5, h6, h7⟩
    by_cases hguard : (decide (caller.role = Role.human) && caller.isPrimaryHuman) = true
    · have hsorteq : sortByKey (fun e => e.createdAt) s.pending = s.pending :=
        sortByKey_eq_self _ _ (pendingSorted_createdAt h2 h3)
      have hnodup : (pendingIds s).Nodup := pendingIds_nodup h3
      rw [routingStep_interject_flush members s caller hguard hsorteq]
      have hcount : ∀ m, releaseCount (log ++ s.pending.map (fun e =>
          RoutingAction.aiRelease e.messageId (aiRecipientSids members e.senderSid) true)) m
          = releaseCount log m + (pendingIds s).count m := by
        intro m
        rw [releaseCount_append, releaseCount_map_flush]
        rfl
      refine ⟨by simp, by simp, by simp, by simp, ?_, ?_, ?_⟩
      · intro m
        rw [hcount]
        by_cases hmem : m ∈ pendingIds s
        · have hz : releaseCount log m = 0 := by
            by_contra hc
            exact h6 m (by omega) hmem
          have hone : (pendingIds s).count m ≤ 1 :=
            List.nodup_iff_count_le_one.mp hnodup m
          omega
        · have hz : (pendingIds s).count m = 0 := List.count_eq_zero.mpr hmem
          have := h5 m
          omega
      · intro m _
        simp [pendingIds]
      · intro m hm
        rw [hcount] at hm
        by_cases hmem : m ∈ pendingIds s
        · simp [pendingIds] at hmem
          rcases hmem with ⟨e, he, hid⟩
          exact hid ▸ h1 e he
        · have hz : (pendingIds s).count m = 0 := List.count_eq_zero.mpr hmem
          exact h7 m (by omega)
    · rw [Bool.not_eq_true] at hguard
      rw [routingStep_interject_denied members s caller hguard]
      exact ⟨h1, h2, h3, h4, by simpa using h5, by simpa using h6, by simpa using h7⟩

theorem routingRun_append (members : List Member) (s : RoomRoutingState)
    (es1 es2 : List RoutingEvent) :
    routingRun members s (es1 ++ es2)
      = ((routingRun members (routingRun members s es1).1 es2).1,
         (routingRun members s es1).2
           ++ (routingRun members (routingRun members s es1).1 es2).2) := by
  induction es1 generalizing s with
  | nil => simp [routingRun]
  | cons e es ih =>
    simp [routingRun, ih, List.append_assoc]

theorem routingInv_run_from (members : List Member) {s : RoomRoutingState}
    {log : List RoutingAction} (h : RoutingInv s log) (es : List RoutingEvent) :
    RoutingInv (routingRun members s es).1 (log ++ (routingRun members s es).2) := by
  induction es generalizing s log with
  | nil => simpa [routingRun] using h
  | cons e es ih =>
    have h2 := ih (routingInv_step members h e)
    simpa [routingRun, List.append_assoc] using h2

theorem routingInv_run (members : List Member) (es : List RoutingEvent) :
    RoutingInv (routingRun members initialRoomState es).1
      (routingRun members initialRoomState es).2 := by
  simpa using routingInv_run_from members routingInv_initial es

/-- Exactly-once tracking predicate for one message id: either the message
still sits in the pending queue (enqueued while interject was idle) and has
never been released to AI recipients, or it has been released exactly
once. -/
def TrackedOnce (s : RoomRoutingState) (log : List RoutingAction) (mid : Nat) : Prop :=
  ((∃ e ∈ s.pending, e.messageId = mid ∧ e.enqueuedWhileArmed = false) ∧
    releaseCount log mid = 0) ∨ releaseCount log mid = 1

theorem trackedOnce_step (members : List Member) {s : RoomRoutingState}
    {log : List RoutingAction} {mid : Nat} (hinv : RoutingInv s log)
    (ht : TrackedOnce s log mid) :
    ∀ e : RoutingEvent,
      TrackedOnce (routingStep members s e).1 (log ++ (routingStep members s e).2) mid
  | .send sender emergency => by
    by_cases hem : (decide (sender.role = Role.human) && emergency) = true
    · by_cases henq : (decide (sender.role = Role.ai)
          && !(aiRecipientSids members sender.sid).isEmpty) = true
      · simp [Bool.and_eq_true, decide_eq_true_eq] at hem henq
        rw [henq.1] at hem
        simp at hem
      · rw [Bool.not_eq_true] at henq
        rw [routingStep_send_emergency members s sender emergency hem henq]
        rcases ht with ⟨⟨e, he, hid, hflag⟩, hz⟩ | hone
        · exact Or.inl ⟨⟨e, he, hid, hflag⟩, by
            rw [releaseCount_append, releaseCount_interjection, hz]⟩
        · exact Or.inr (by rw [releaseCount_append, releaseCount_interjection, hone])
    · rw [Bool.not_eq_true] at hem
      by_cases henq : (decide (sender.role = Role.ai)
          && !(aiRecipientSids members sender.sid).isEmpty) = true
      · rw [routingStep_send_enqueue members s sender emergency hem henq]
        rcases ht with ⟨⟨e, he, hid, hflag⟩, hz⟩ | hone
        · exact Or.inl ⟨⟨e, List.mem_append_left _ he, hid, hflag⟩, by
            rw [releaseCount_append, releaseCount_nil, hz]⟩
        · exact Or.inr (by rw [releaseCount_append, releaseCount_nil, hone])
      · rw [Bool.not_eq_true] at henq
        rw [routingStep_send_plain members s sender emergency hem henq]
        rcases ht with ⟨⟨e, he, hid, hflag⟩, hz⟩ | hone
        · exact Or.inl ⟨⟨e, he, hid, hflag⟩, by
            rw [releaseCount_append, releaseCount_nil, hz]⟩
        · exact Or.inr (by rw [releaseCount_append, releaseCount_nil, hone])
  | .timerFire mid2 => by
    cases hfind : s.pending.find? (fun e => decide (e.messageId = mid2)) with
    | none =>
      rw [routingStep_timer_gone members s mid2 hfind]
      simpa using ht
    | some e2 =>
      by_cases harm : s.interjectActive = true
      · rw [routingStep_timer_armed members s mid2 e2 hfind harm]
        rcases ht with ⟨⟨e, he, _, hflag⟩, _⟩ | hone
        · have := hinv.armedFlags harm e he
          rw [this] at hflag
          simp at hflag
        · exact Or.inr (by rw [releaseCount_append, releaseCount_nil, hone])
      · rw [Bool.not_eq_true] at harm
        rw [routingStep_timer_release members s mid2 e2 hfind harm]
        rcases ht with ⟨⟨e, he, hid, hflag⟩, hz⟩ | hone
        · by_cases hmm : mid2 = mid
          · subst hmm
            exact Or.inr (by rw [releaseCount_append, releaseCount_release_self, hz])
          · refine Or.inl ⟨⟨e, ?_, hid, hflag⟩, by
              rw [releaseCount_append, releaseCount_release_other hmm, hz]⟩
            refine List.mem_filter.mpr ⟨he, ?_⟩
            simp
            omega
        · have hnp := hinv.releasedNotPending mid (by omega)
          have hne : mid2 ≠ mid := by
            intro hcon
            subst hcon
            exact hnp (by
              simp [pendingIds]
              exact ⟨e2, List.mem_of_find?_eq_some hfind, by
                have := List.find?_some hfind
                simpa using this⟩)
          exact Or.inr (by rw [releaseCount_append, releaseCount_release_other hne, hone])
  | .startInterject caller => by
    by_cases hguard : (decide (caller.role = Role.human) && caller.isPrimaryHuman) = true
    · have hsorteq : sortByKey (fun e => e.createdAt) s.pending = s.pending :=
        sortByKey_eq_self _ _ (pendingSorted_createdAt hinv.createdEqId hinv.pendingSorted)
      have hnodup : (pendingIds s).Nodup := pendingIds_nodup hinv.pendingSorted
      rw [routingStep_interject_flush members s caller hguard hsorteq]
      have hcount : releaseCount (log ++ s.pending.map (fun e =>
          RoutingAction.aiRelease e.messageId (aiRecipientSids members e.senderSid) true)) mid
          = releaseCount log mid + (pendingIds s).count mid := by
        rw [releaseCount_append, releaseCount_map_flush]
        rfl
      rcases ht with ⟨⟨e, he, hid, _⟩, hz⟩ | hone
      · have hmem : mid ∈ pendingIds s := by
          simp [pendingIds]
          exact ⟨e, he, hid⟩
        have hone2 : (pendingIds s).count mid = 1 :=
          List.count_eq_one_of_mem hnodup hmem
        exact Or.inr (by rw [hcount, hz, hone2])
      · have hnp := hinv.releasedNotPending mid (by omega)
        have hz2 : (pendingIds s).count mid = 0 := List.count_eq_zero.mpr hnp
        exact Or.inr (by rw [hcount, hone, hz2])
    · rw [Bool.not_eq_true] at hguard
      rw [routingStep_interject_denied members s caller hguard]
      simpa using ht

theorem trackedOnce_run (members : List Member) {s : RoomRoutingState}
    {log : List RoutingAction} {mid : Nat} (hinv : RoutingInv s log)
    (ht : TrackedOnce s log mid) (es : List RoutingEvent) :
    TrackedOnce (routingRun members s es).1 (log ++ (routingRun members s es).2) mid := by
  induction es generalizing s log with
  | nil => simpa [routingRun] using ht
  | cons e es ih =>
    have h3 := ih (routingInv_step members hinv e) (trackedOnce_step members hinv ht e)
    simpa [routingRun, List.append_assoc] using h3

theorem c1_core (members : List Member) {s1 : RoomRoutingState}
    {log1 : List RoutingAction} (hinv1 : RoutingInv s1 log1)
    (hidle : s1.interjectActive = false) (sender : Member)
    (hrole : sender.role = Role.ai)
    (hai : (aiRecipientSids members sender.sid).isEmpty = false)
    (es2 : List RoutingEvent) :
    releaseCount (log1 ++
        (routingRun members s1 (RoutingEvent.send sender false :: es2)).2) s1.clock = 1
      ∨ s1.clock ∈ pendingIds
          (routingRun members s1 (RoutingEvent.send sender false :: es2)).1 := by
  have hem : (decide (sender.role = Role.human) && false) = false := by simp
  have henq : (decide (sender.role = Role.ai)
      && !(aiRecipientSids members sender.sid).isEmpty) = true := by
    simp [hrole, hai]
  have heq := routingStep_send_enqueue members s1 sender false hem henq
  have hinv2 := routingInv_step members hinv1 (RoutingEvent.send sender false)
  rw [heq] at hinv2
  have hz : releaseCount log1 s1.clock = 0 := by
    by_contra hc
    have := hinv1.releasedBelowClock s1.clock (by omega)
    omega
  have ht : TrackedOnce
      ({ clock := s1.clock + 1, interjectActive := s1.interjectActive,
         pending := s1.pending ++
           [{ messageId := s1.clock, senderSid := sender.sid,
              createdAt := s1.clock, enqueuedWhileArmed := s1.interjectActive }] })
      (log1 ++ []) s1.clock := by
    refine Or.inl ⟨⟨⟨s1.clock, sender.sid, s1.clock, s1.interjectActive⟩,
      List.mem_append_right _ (List.mem_singleton_self _), rfl, ?_⟩, ?_⟩
    · simpa using hidle
    · simpa using hz
  have htr := trackedOnce_run members hinv2 ht es2
  rcases htr with ⟨⟨e, he, hid, _⟩, _⟩ | hone
  · right
    simp [routingRun, heq, pendingIds]
    simp [pendingIds] at he hid ⊢
    exact ⟨e, he, hid⟩
  · left
    simp [routingRun, heq]
    simpa using hone

/-- C1, amended.  The original claim states that every AI-authored message
with at least one AI recipient at send time is delivered to AI recipients
exactly once, for every interleaving.  On the code this fails for messages
enqueued while interject-active is already true (see the counterexample):
the timer callback drops such a message without delivering it when the room
is still armed at expiry (server.js lines 357-375 deliver only when
interjectActive is false, yet the entry is removed unconditionally, and the
start-interject flush only covers entries still queued).  What does hold:
(1) no message is ever released to AI recipients more than once, and
(2) an AI-authored message with at least one AI recipient that is enqueued
while interject-active is false is released exactly once unless it still
sits in the pending queue at the end of the trace. -/
theorem c1_ai_delivery_amended (members : List Member) (es1 es2 : List RoutingEvent)
    (sender : Member) (hrole : sender.role = Role.ai)
    (hai : (aiRecipientSids members sender.sid).isEmpty = false)
    (hidle : (routingRun members initialRoomState es1).1.interjectActive = false) :
    (∀ m, releaseCount (routingRun members initialRoomState
        (es1 ++ RoutingEvent.send sender false :: es2)).2 m ≤ 1) ∧
    (releaseCount (routingRun members initialRoomState
        (es1 ++ RoutingEvent.send sender false :: es2)).2
        (routingRun members initialRoomState es1).1.clock = 1
      ∨ (routingRun members initialRoomState es1).1.clock ∈
          pendingIds (routingRun members initialRoomState
            (es1 ++ RoutingEvent.send sender false :: es2)).1) := by
  constructor
  · exact (routingInv_run members _).releasedOnce
  · have hcore := c1_core members (routingInv_run members es1) hidle sender hrole hai es2
    rw [routingRun_append members initialRoomState es1
      (RoutingEvent.send sender false :: es2)]
    simpa using hcore

/-- C1, counterexample to the claim as stated.  In a room with primary
human socket 0 and AI sockets 1 and 2: the primary human starts an
interjection, then AI socket 1 sends a message (message id 0, AI recipient
socket 2 exists at send time), then its 10-second timer expires while the
interjection is still armed (the primary human has not sent the emergency
message yet).  The message leaves the pending queue with zero AI releases:
AI delivery happened zero times, refuting never-zero-times. -/
theorem c1_ai_delivery_counterexample :
    (aiRecipientSids
        [{ sid := 0, role := Role.human, isPrimaryHuman := true },
         { sid := 1, role := Role.ai, isPrimaryHuman := false },
         { sid := 2, role := Role.ai, isPrimaryHuman := false }] 1).isEmpty = false
    ∧ releaseCount (routingRun
        [{ sid := 0, role := Role.human, isPrimaryHuman := true },
         { sid := 1, role := Role.ai, isPrimaryHuman := false },
         { sid := 2, role := Role.ai, isPrimaryHuman := false }] initialRoomState
        [RoutingEvent.startInterject { sid := 0, role := Role.human, isPrimaryHuman := true },
         RoutingEvent.send { sid := 1, role := Role.ai, isPrimaryHuman := false } false,
         RoutingEvent.timerFire 0]).2 0 = 0
    ∧ pendingIds (routingRun
        [{ sid := 0, role := Role.human, isPrimaryHuman := true },
         { sid := 1, role := Role.ai, isPrimaryHuman := false },
         { sid := 2, role := Role.ai, isPrimaryHuman := false }] initialRoomState
        [RoutingEvent.startInterject { sid := 0, role := Role.human, isPrimaryHuman := true },
         RoutingEvent.send { sid := 1, role := Role.ai, isPrimaryHuman := false } false,
         RoutingEvent.timerFire 0]).1 = [] := by
  refine ⟨by decide, by decide, by decide⟩

/-- Witness for the amended C1 theorem at a concrete input: AI socket 1
sends message 0 into an idle room and the timer then fires, so the
conclusion's first disjunct (released exactly once) is realized. -/
theorem c1_ai_delivery_amended_witness :
    Member.role { sid := 1, role := Role.ai, isPrimaryHuman := false } = Role.ai
    ∧ (aiRecipientSids
        [{ sid := 0, role := Role.human, isPrimaryHuman := true },
         { sid := 1, role := Role.ai, isPrimaryHuman := false },
         { sid := 2, role := Role.ai, isPrimaryHuman := false }] 1).isEmpty = false
    ∧ (routingRun
        [{ sid := 0, role := Role.human, isPrimaryHuman := true },
         { sid := 1, role := Role.ai, isPrimaryHuman := false },
         { sid := 2, role := Role.ai, isPrimaryHuman := false }]
        initialRoomState []).1.interjectActive = false
    ∧ ((∀ m, releaseCount (routingRun
        [{ sid := 0, role := Role.human, isPrimaryHuman := true },
         { sid := 1, role := Role.ai, isPrimaryHuman := false },
         { sid := 2, role := Role.ai, isPrimaryHuman := false }] initialRoomState
        ([] ++ RoutingEvent.send { sid := 1, role := Role.ai, isPrimaryHuman := false } false
          :: [RoutingEvent.timerFire 0])).2 m ≤ 1) ∧
      (releaseCount (routingRun
        [{ sid := 0, role := Role.human, isPrimaryHuman := true },
         { sid := 1, role := Role.ai, isPrimaryHuman := false },
         { sid := 2, role := Role.ai, isPrimaryHuman := false }] initialRoomState
        ([] ++ RoutingEvent.send { sid := 1, role := Role.ai, isPrimaryHuman := false } false
          :: [RoutingEvent.timerFire 0])).2
        (routingRun
          [{ sid := 0, role := Role.human, isPrimaryHuman := true },
           { sid := 1, role := Role.ai, isPrimaryHuman := false },
           { sid := 2, role := Role.ai, isPrimaryHuman := false }]
          initialRoomState []).1.clock = 1
        ∨ (routingRun
          [{ sid := 0, role := Role.human, isPrimaryHuman := true },
           { sid := 1, role := Role.ai, isPrimaryHuman := false },
           { sid := 2, role := Role.ai, isPrimaryHuman := false }]
          initialRoomState []).1.clock ∈
            pendingIds (routingRun
              [{ sid := 0, role := Role.human, isPrimaryHuman := true },
               { sid := 1, role := Role.ai, isPrimaryHuman := false },
               { sid := 2, role := Role.ai, isPrimaryHuman := false }] initialRoomState
              ([] ++ RoutingEvent.send { sid := 1, role := Role.ai, isPrimaryHuman := false } false
                :: [RoutingEvent.timerFire 0])).1)) :=
  ⟨rfl, by decide, by decide,
    c1_ai_delivery_amended
      [{ sid := 0, role := Role.human, isPrimaryHuman := true },
       { sid := 1, role := Role.ai, isPrimaryHuman := false },
       { sid := 2, role := Role.ai, isPrimaryHuman := false }]
      [] [RoutingEvent.timerFire 0]
      { sid := 1, role := Role.ai, isPrimaryHuman := false }
      rfl (by decide) (by decide)⟩

theorem routingRun_cons (members : List Member) (s : RoomRoutingState)
    (e : RoutingEvent) (es : List RoutingEvent) :
    routingRun members s (e :: es)
      = ((routingRun members (routingStep members s e).1 es).1,
         (routingStep members s e).2
           ++ (routingRun members (routingStep members s e).1 es).2) := by
  simp [routingRun]

theorem routingStep_send_interject (members : List Member) (s : RoomRoutingState)
    (sender : Member) (emergency : Bool) :
    ((routingStep members s (RoutingEvent.send sender emergency)).1).interjectActive
      = (if (decide (sender.role = Role.human) && emergency) = true then false
         else s.interjectActive) := by
  by_cases hem : (decide (sender.role = Role.human) && emergency) = true <;>
    by_cases henq : (decide (sender.role = Role.ai)
      && !(aiRecipientSids members sender.sid).isEmpty) = true <;>
    simp [routingStep, hem, henq]

theorem routingStep_timer_interject (members : List Member) (s : RoomRoutingState)
    (mid : Nat) :
    ((routingStep members s (RoutingEvent.timerFire mid)).1).interjectActive
      = s.interjectActive := by
  cases hfind : s.pending.find? (fun e => decide (e.messageId = mid)) with
  | none => rw [routingStep_timer_gone members s mid hfind]
  | some e2 =>
    by_cases harm : s.interjectActive = true
    · rw [routingStep_timer_armed members s mid e2 hfind harm]
    · rw [Bool.not_eq_true] at harm
      rw [routingStep_timer_release members s mid e2 hfind harm]

theorem routingStep_interject_interject (members : List Member) (s : RoomRoutingState)
    (caller : Member) :
    ((routingStep members s (RoutingEvent.startInterject caller)).1).interjectActive
      = (if (decide (caller.role = Role.human) && caller.isPrimaryHuman) = true then true
         else s.interjectActive) := by
  by_cases hguard : (decide (caller.role = Role.human) && caller.isPrimaryHuman) = true <;>
    simp [routingStep, hguard]

/-- C4, amended.  The original claim says the interject-active flag only
resets on an emergency send by the same primary-human participant who armed
it.  On the code (server.js line 393) the reset condition is only
senderRole human and emergencyInterject, with no primary-human check, so
any human's emergency-flagged send clears the armed state (see the
counterexample).  What does hold: the flag transitions from true to false
exactly on a send event whose sender socket has role human and whose
emergency flag is set; timer firings and start-interject requests never
clear it. -/
theorem c4_interject_reset_amended (members : List Member) (s : RoomRoutingState) :
    ∀ e : RoutingEvent,
      (s.interjectActive = true ∧ (routingStep members s e).1.interjectActive = false)
        ↔ (s.interjectActive = true ∧ ∃ sender : Member,
            e = RoutingEvent.send sender true ∧ sender.role = Role.human)
  | .send sender emergency => by
    rw [routingStep_send_interject]
    constructor
    · rintro ⟨harm, hoff⟩
      by_cases hem : (decide (sender.role = Role.human) && emergency) = true
      · have hem2 : sender.role = Role.human ∧ emergency = true := by simpa using hem
        exact ⟨harm, sender, by rw [hem2.2], hem2.1⟩
      · rw [if_neg hem] at hoff
        rw [harm] at hoff
        simp at hoff
    · rintro ⟨harm, sender2, heq2, hrole2⟩
      injection heq2 with h1 h2
      subst h1
      subst h2
      exact ⟨harm, by rw [if_pos (by simp [hrole2])]⟩
  | .timerFire mid => by
    rw [routingStep_timer_interject]
    constructor
    · rintro ⟨harm, hoff⟩
      rw [harm] at hoff
      simp at hoff
    · rintro ⟨-, sender2, heq2, -⟩
      simp at heq2
  | .startInterject caller => by
    rw [routingStep_interject_interject]
    constructor
    · rintro ⟨harm, hoff⟩
      by_cases hguard : (decide (caller.role = Role.human) && caller.isPrimaryHuman) = true
      · rw [if_pos hguard] at hoff
        simp at hoff
      · rw [if_neg hguard] at hoff
        rw [harm] at hoff
        simp at hoff
    · rintro ⟨-, sender2, heq2, -⟩
      simp at heq2

/-- C4, counterexample to the claim as stated.  Primary human socket 0 arms
the interjection; human socket 3, which is not the primary human, sends a
message with the emergency flag, and the armed state clears: the code's
reset condition (server.js line 393) checks only senderRole and the
emergency flag, not who armed it. -/
theorem c4_interject_reset_counterexample :
    (routingRun
        [{ sid := 0, role := Role.human, isPrimaryHuman := true },
         { sid := 3, role := Role.human, isPrimaryHuman := false },
         { sid := 1, role := Role.ai, isPrimaryHuman := false }] initialRoomState
        [RoutingEvent.startInterject { sid := 0, role := Role.human, isPrimaryHuman := true }]
      ).1.interjectActive = true
    ∧ Member.isPrimaryHuman { sid := 3, role := Role.human, isPrimaryHuman := false } = false
    ∧ (routingStep
        [{ sid := 0, role := Role.human, isPrimaryHuman := true },
         { sid := 3, role := Role.human, isPrimaryHuman := false },
         { sid := 1, role := Role.ai, isPrimaryHuman := false }]
        (routingRun
          [{ sid := 0, role := Role.human, isPrimaryHuman := true },
           { sid := 3, role := Role.human, isPrimaryHuman := false },
           { sid := 1, role := Role.ai, isPrimaryHuman := false }] initialRoomState
          [RoutingEvent.startInterject { sid := 0, role := Role.human, isPrimaryHuman := true }]
        ).1
        (RoutingEvent.send { sid := 3, role := Role.human, isPrimaryHuman := false } true)
      ).1.interjectActive = false := by
  refine ⟨by decide, rfl, by decide⟩

theorem mem_aiRecipientSids (members : List Member) (ssid x : Nat) :
    x ∈ aiRecipientSids members ssid
      ↔ ∃ m ∈ members, m.role = Role.ai ∧ m.sid ≠ ssid ∧ m.sid = x := by
  simp only [aiRecipientSids, List.mem_map, List.mem_filter, Bool.and_eq_true,
    decide_eq_true_eq]
  constructor
  · rintro ⟨m, ⟨hm, hne, hrole⟩, hx⟩
    exact ⟨m, hm, hrole, hne, hx⟩
  · rintro ⟨m, hm, hrole, hne, hx⟩
    exact ⟨m, ⟨hm, hne, hrole⟩, hx⟩

/-- C5: when start-interject preempts the delay queue (server.js
lines 229-258), in any reachable room state: (1) the queued entries carry
ascending createdAt timestamps, so the sort by createdAt preserves queue
(send) order; (2) the flush emits exactly the queued entries in that FIFO
order, each released to every AI socket except the entry's original sender
and marked blocked-by-interject with released-at set; (3) the pending list
is emptied; (4) the timer of a flushed entry is cancelled: a later
timerFire for any flushed message id is a no-op; (5) the AI recipient list
of an entry consists precisely of the room's AI sockets other than the
entry's sender; (6) in the full trace, every flush release appears in the
action log before the primary human's own interjection message delivery. -/
theorem c5_interject_flush (members : List Member) (es1 es2 : List RoutingEvent)
    (caller : Member)
    (hcaller : (decide (caller.role = Role.human) && caller.isPrimaryHuman) = true) :
    (routingRun members initialRoomState es1).1.pending.Pairwise
      (fun a b => a.createdAt ≤ b.createdAt)
    ∧ (routingStep members (routingRun members initialRoomState es1).1
        (RoutingEvent.startInterject caller)).2
      = (routingRun members initialRoomState es1).1.pending.map (fun e =>
          RoutingAction.aiRelease e.messageId (aiRecipientSids members e.senderSid) true)
    ∧ (routingStep members (routingRun members initialRoomState es1).1
        (RoutingEvent.startInterject caller)).1.pending = []
    ∧ (∀ mid, routingStep members
        (routingStep members (routingRun members initialRoomState es1).1
          (RoutingEvent.startInterject caller)).1 (RoutingEvent.timerFire mid)
        = ((routingStep members (routingRun members initialRoomState es1).1
            (RoutingEvent.startInterject caller)).1, []))
    ∧ (∀ ssid x, x ∈ aiRecipientSids members ssid
        ↔ ∃ m ∈ members, m.role = Role.ai ∧ m.sid ≠ ssid ∧ m.sid = x)
    ∧ ∃ middleLog : List RoutingAction, ∃ interjectionId : Nat,
        (routingRun members initialRoomState
          (es1 ++ RoutingEvent.startInterject caller
            :: (es2 ++ [RoutingEvent.send caller true]))).2
        = (routingRun members initialRoomState es1).2
          ++ ((routingRun members initialRoomState es1).1.pending.map (fun e =>
                RoutingAction.aiRelease e.messageId (aiRecipientSids members e.senderSid) true)
            ++ (middleLog ++ [RoutingAction.interjectionDelivered interjectionId])) := by
  have hinv := routingInv_run members es1
  have hpw := pendingSorted_createdAt hinv.createdEqId hinv.pendingSorted
  have hsorteq := sortByKey_eq_self (fun e => e.createdAt)
    (routingRun members initialRoomState es1).1.pending hpw
  have heqf := routingStep_interject_flush members
    (routingRun members initialRoomState es1).1 caller hcaller hsorteq
  have hrolehuman : caller.role = Role.human := by
    have : caller.role = Role.human ∧ caller.isPrimaryHuman = true := by simpa using hcaller
    exact this.1
  have hem2 : (decide (caller.role = Role.human) && true) = true := by
    simp [hrolehuman]
  have henq2 : (decide (caller.role = Role.ai)
      && !(aiRecipientSids members caller.sid).isEmpty) = false := by
    simp [hrolehuman]
  refine ⟨hpw, by rw [heqf], by rw [heqf], ?_, fun ssid x => mem_aiRecipientSids members ssid x, ?_⟩
  · intro mid
    rw [heqf]
    exact routingStep_timer_gone members _ mid rfl
  · refine ⟨(routingRun members (routingStep members
        (routingRun members initialRoomState es1).1
        (RoutingEvent.startInterject caller)).1 es2).2,
      (routingRun members (routingStep members
        (routingRun members initialRoomState es1).1
        (RoutingEvent.startInterject caller)).1 es2).1.clock, ?_⟩
    rw [routingRun_append members initialRoomState es1
      (RoutingEvent.startInterject caller :: (es2 ++ [RoutingEvent.send caller true]))]
    rw [routingRun_cons members (routingRun members initialRoomState es1).1
      (RoutingEvent.startInterject caller) (es2 ++ [RoutingEvent.send caller true])]
    rw [routingRun_append members (routingStep members
      (routingRun members initialRoomState es1).1
      (RoutingEvent.startInterject caller)).1 es2 [RoutingEvent.send caller true]]
    rw [routingRun_cons members _ (RoutingEvent.send caller true) []]
    rw [routingStep_send_emergency members _ caller true hem2 henq2]
    rw [heqf]
    simp [routingRun, List.append_assoc]

/-- Witness for the C5 theorem at a concrete input: AI sockets 1 and 2 each
send a message (ids 0 and 1, both enqueued), then the primary human socket 0
starts an interjection and sends the emergency message. -/
theorem c5_interject_flush_witness :
    (decide (Member.role { sid := 0, role := Role.human, isPrimaryHuman := true } = Role.human)
      && Member.isPrimaryHuman { sid := 0, role := Role.human, isPrimaryHuman := true }) = true
    ∧ ((routingRun
        [{ sid := 0, role := Role.human, isPrimaryHuman := true },
         { sid := 1, role := Role.ai, isPrimaryHuman := false },
         { sid := 2, role := Role.ai, isPrimaryHuman := false }] initialRoomState
        [RoutingEvent.send { sid := 1, role := Role.ai, isPrimaryHuman := false } false,
         RoutingEvent.send { sid := 2, role := Role.ai, isPrimaryHuman := false } false]).1.pending.Pairwise
          (fun a b => a.createdAt ≤ b.createdAt)
      ∧ (routingStep
          [{ sid := 0, role := Role.human, isPrimaryHuman := true },
           { sid := 1, role := Role.ai, isPrimaryHuman := false },
           { sid := 2, role := Role.ai, isPrimaryHuman := false }]
          (routingRun
            [{ sid := 0, role := Role.human, isPrimaryHuman := true },
             { sid := 1, role := Role.ai, isPrimaryHuman := false },
             { sid := 2, role := Role.ai, isPrimaryHuman := false }] initialRoomState
            [RoutingEvent.send { sid := 1, role := Role.ai, isPrimaryHuman := false } false,
             RoutingEvent.send { sid := 2, role := Role.ai, isPrimaryHuman := false } false]).1
          (RoutingEvent.startInterject { sid := 0, role := Role.human, isPrimaryHuman := true })).2
        = (routingRun
            [{ sid := 0, role := Role.human, isPrimaryHuman := true },
             { sid := 1, role := Role.ai, isPrimaryHuman := false },
             { sid := 2, role := Role.ai, isPrimaryHuman := false }] initialRoomState
            [RoutingEvent.send { sid := 1, role := Role.ai, isPrimaryHuman := false } false,
             RoutingEvent.send { sid := 2, role := Role.ai, isPrimaryHuman := false } false]).1.pending.map
            (fun e => RoutingAction.aiRelease e.messageId
              (aiRecipientSids
                [{ sid := 0, role := Role.human, isPrimaryHuman := true },
                 { sid := 1, role := Role.ai, isPrimaryHuman := false },
                 { sid := 2, role := Role.ai, isPrimaryHuman := false }] e.senderSid) true)
      ∧ (routingStep
          [{ sid := 0, role := Role.human, isPrimaryHuman := true },
           { sid := 1, role := Role.ai, isPrimaryHuman := false },
           { sid := 2, role := Role.ai, isPrimaryHuman := false }]
          (routingRun
            [{ sid := 0, role := Role.human, isPrimaryHuman := true },
             { sid := 1, role := Role.ai, isPrimaryHuman := false },
             { sid := 2, role := Role.ai, isPrimaryHuman := false }] initialRoomState
            [RoutingEvent.send { sid := 1, role := Role.ai, isPrimaryHuman := false } false,
             RoutingEvent.send { sid := 2, role := Role.ai, isPrimaryHuman := false } false]).1
          (RoutingEvent.startInterject { sid := 0, role := Role.human, isPrimaryHuman := true })).1.pending
        = []
      ∧ (∀ mid, routingStep
          [{ sid := 0, role := Role.human, isPrimaryHuman := true },
           { sid := 1, role := Role.ai, isPrimaryHuman := false },
           { sid := 2, role := Role.ai, isPrimaryHuman := false }]
          (routingStep
            [{ sid := 0, role := Role.human, isPrimaryHuman := true },
             { sid := 1, role := Role.ai, isPrimaryHuman := false },
             { sid := 2, role := Role.ai, isPrimaryHuman := false }]
            (routingRun
              [{ sid := 0, role := Role.human, isPrimaryHuman := true },
               { sid := 1, role := Role.ai, isPrimaryHuman := false },
               { sid := 2, role := Role.ai, isPrimaryHuman := false }] initialRoomState
              [RoutingEvent.send { sid := 1, role := Role.ai, isPrimaryHuman := false } false,
               RoutingEvent.send { sid := 2, role := Role.ai, isPrimaryHuman := false } false]).1
            (RoutingEvent.startInterject { sid := 0, role := Role.human, isPrimaryHuman := true })).1
          (RoutingEvent.timerFire mid)
          = ((routingStep
              [{ sid := 0, role := Role.human, isPrimaryHuman := true },
               { sid := 1, role := Role.ai, isPrimaryHuman := false },
               { sid := 2, role := Role.ai, isPrimaryHuman := false }]
              (routingRun
                [{ sid := 0, role := Role.human, isPrimaryHuman := true },
                 { sid := 1, role := Role.ai, isPrimaryHuman := false },
                 { sid := 2, role := Role.ai, isPrimaryHuman := false }] initialRoomState
                [RoutingEvent.send { sid := 1, role := Role.ai, isPrimaryHuman := false } false,
                 RoutingEvent.send { sid := 2, role := Role.ai, isPrimaryHuman := false } false]).1
              (RoutingEvent.startInterject { sid := 0, role := Role.human, isPrimaryHuman := true })).1,
            []))
      ∧ (∀ ssid x, x ∈ aiRecipientSids
            [{ sid := 0, role := Role.human, isPrimaryHuman := true },
             { sid := 1, role := Role.ai, isPrimaryHuman := false },
             { sid := 2, role := Role.ai, isPrimaryHuman := false }] ssid
          ↔ ∃ m ∈ ([{ sid := 0, role := Role.human, isPrimaryHuman := true },
                    { sid := 1, role := Role.ai, isPrimaryHuman := false },
                    { sid := 2, role := Role.ai, isPrimaryHuman := false }] : List Member),
              m.role = Role.ai ∧ m.sid ≠ ssid ∧ m.sid = x)
      ∧ ∃ middleLog : List RoutingAction, ∃ interjectionId : Nat,
          (routingRun
            [{ sid := 0, role := Role.human, isPrimaryHuman := true },
             { sid := 1, role := Role.ai, isPrimaryHuman := false },
             { sid := 2, role := Role.ai, isPrimaryHuman := false }] initialRoomState
            ([RoutingEvent.send { sid := 1, role := Role.ai, isPrimaryHuman := false } false,
              RoutingEvent.send { sid := 2, role := Role.ai, isPrimaryHuman := false } false]
              ++ RoutingEvent.startInterject { sid := 0, role := Role.human, isPrimaryHuman := true }
                :: ([] ++ [RoutingEvent.send { sid := 0, role := Role.human, isPrimaryHuman := true } true]))).2
          = (routingRun
              [{ sid := 0, role := Role.human, isPrimaryHuman := true },
               { sid := 1, role := Role.ai, isPrimaryHuman := false },
               { sid := 2, role := Role.ai, isPrimaryHuman := false }] initialRoomState
              [RoutingEvent.send { sid := 1, role := Role.ai, isPrimaryHuman := false } false,
               RoutingEvent.send { sid := 2, role := Role.ai, isPrimaryHuman := false } false]).2
            ++ ((routingRun
                [{ sid := 0, role := Role.human, isPrimaryHuman := true },
                 { sid := 1, role := Role.ai, isPrimaryHuman := false },
                 { sid := 2, role := Role.ai, isPrimaryHuman := false }] initialRoomState
                [RoutingEvent.send { sid := 1, role := Role.ai, isPrimaryHuman := false } false,
                 RoutingEvent.send { sid := 2, role := Role.ai, isPrimaryHuman := false } false]).1.pending.map
                (fun e => RoutingAction.aiRelease e.messageId
                  (aiRecipientSids
                    [{ sid := 0, role := Role.human, isPrimaryHuman := true },
                     { sid := 1, role := Role.ai, isPrimaryHuman := false },
                     { sid := 2, role := Role.ai, isPrimaryHuman := false }] e.senderSid) true)
              ++ (middleLog ++ [RoutingAction.interjectionDelivered interjectionId]))) :=
  ⟨by decide,
    c5_interject_flush
      [{ sid := 0, role := Role.human, isPrimaryHuman := true },
       { sid := 1, role := Role.ai, isPrimaryHuman := false },
       { sid := 2, role := Role.ai, isPrimaryHuman := false }]
      [RoutingEvent.send { sid := 1, role := Role.ai, isPrimaryHuman := false } false,
       RoutingEvent.send { sid := 2, role := Role.ai, isPrimaryHuman := false } false]
      []
      { sid := 0, role := Role.human, isPrimaryHuman := true }
      (by decide)⟩

theorem sendMessageHandler_eq (ctx : SendContext) (inp : SendInput)
    (hroom : ctx.roomFound = true) (htext : jsTrim inp.text ≠ []) :
    sendMessageHandler ctx inp = some
      ({ body := (jsTrim inp.text).take 5000,
         status := MessageStatus.sent,
         emergencyInterject := inp.emergencyInterject,
         heldForAi := heldForAiDecision ctx.pauseAi (ctx.participantRoles.contains Role.human)
           ctx.senderRole inp.emergencyInterject,
         taskState := if allowedTaskStates.contains inp.taskState then inp.taskState else "none",
         taskDescription := if (jsTrim inp.taskDescription).take 500 = []
           then none else some ((jsTrim inp.taskDescription).take 500),
         aiDelayed := decide (ctx.senderRole = Role.ai) },
       sendEmitSids ctx.members ctx.senderSid ctx.senderRole
         (heldForAiDecision ctx.pauseAi (ctx.participantRoles.contains Role.human)
           ctx.senderRole inp.emergencyInterject) inp.emergencyInterject) := by
  have htext2 : inp.text ≠ [] := by
    intro hc
    apply htext
    rw [hc]
    rfl
  simp [sendMessageHandler, hroom, htext, htext2]

theorem sendMessageHandler_accepted {ctx : SendContext} {inp : SendInput}
    {r : SavedMessage × List Nat} (h : sendMessageHandler ctx inp = some r) :
    ctx.roomFound = true ∧ inp.text ≠ [] ∧ jsTrim inp.text ≠ [] := by
  by_cases hc : ctx.roomFound = false ∨ inp.text = [] ∨ jsTrim inp.text = []
  · rw [sendMessageHandler, if_pos hc] at h
    cases h
  · push_neg at hc
    exact ⟨by simpa using hc.1, hc.2.1, hc.2.2⟩

/-- C6: for every accepted send-message, the stored held-for-AI flag is
true exactly when the room's pause flag is active, the room has at least
one human participant, the sender's role is human, and the message is not
emergency-flagged (server.js line 304). -/
theorem c6_pause_gate_decision (ctx : SendContext) (inp : SendInput)
    (r : SavedMessage × List Nat) (h : sendMessageHandler ctx inp = some r) :
    r.1.heldForAi = true
      ↔ (ctx.pauseAi = true ∧ ctx.participantRoles.contains Role.human = true
          ∧ ctx.senderRole = Role.human ∧ inp.emergencyInterject = false) := by
  obtain ⟨hroom, -, htext⟩ := sendMessageHandler_accepted h
  rw [sendMessageHandler_eq ctx inp hroom htext, Option.some_inj] at h
  subst h
  simp [heldForAiDecision, Bool.and_eq_true, decide_eq_true_eq, and_assoc]

/-- Witness for the C6 theorem at a concrete input: pause on, human
present, human sender, no emergency flag, so the message is held. -/
theorem c6_pause_gate_decision_witness :
    sendMessageHandler
      (⟨true, true, [⟨0, Role.human, true⟩, ⟨1, Role.ai, false⟩], 0, Role.human,
        [Role.human, Role.ai]⟩ : SendContext)
      (⟨['h', 'i'], false, "none", []⟩ : SendInput)
      = some ((⟨['h', 'i'], MessageStatus.sent, false, true, "none", none, false⟩ :
          SavedMessage), [0])
    ∧ (((⟨['h', 'i'], MessageStatus.sent, false, true, "none", none, false⟩ :
          SavedMessage), ([0] : List Nat)).1.heldForAi = true
        ↔ ((true : Bool) = true
            ∧ ([Role.human, Role.ai].contains Role.human) = true
            ∧ Role.human = Role.human ∧ (false : Bool) = false)) :=
  ⟨by decide,
    c6_pause_gate_decision
      (⟨true, true, [⟨0, Role.human, true⟩, ⟨1, Role.ai, false⟩], 0, Role.human,
        [Role.human, Role.ai]⟩ : SendContext)
      (⟨['h', 'i'], false, "none", []⟩ : SendInput)
      ((⟨['h', 'i'], MessageStatus.sent, false, true, "none", none, false⟩ :
          SavedMessage), [0])
      (by decide)⟩

/-- C9: for every accepted send-message (non-empty trimmed body, room
found), the sender's own socket is in the immediate message-new emit list,
whatever the sender role, pause flag, held decision or emergency flag
(server.js line 335 emits to the sender unconditionally). -/
theorem c9_sender_always_receives (ctx : SendContext) (inp : SendInput)
    (r : SavedMessage × List Nat) (h : sendMessageHandler ctx inp = some r) :
    ctx.senderSid ∈ r.2 := by
  obtain ⟨hroom, -, htext⟩ := sendMessageHandler_accepted h
  rw [sendMessageHandler_eq ctx inp hroom htext, Option.some_inj] at h
  subst h
  simp [sendEmitSids]

/-- Witness for the C9 theorem at a concrete input: an AI sender in a
paused room still sees its own message. -/
theorem c9_sender_always_receives_witness :
    sendMessageHandler
      (⟨true, true, [⟨0, Role.human, true⟩, ⟨7, Role.ai, false⟩], 7, Role.ai,
        [Role.human, Role.ai]⟩ : SendContext)
      (⟨['o', 'k'], false, "none", []⟩ : SendInput)
      = some ((⟨['o', 'k'], MessageStatus.sent, false, false, "none", none, true⟩ :
          SavedMessage), [7, 0])
    ∧ (7 : Nat) ∈ (((⟨['o', 'k'], MessageStatus.sent, false, false, "none", none, true⟩ :
          SavedMessage), ([7, 0] : List Nat)).2) :=
  ⟨by decide,
    c9_sender_always_receives
      (⟨true, true, [⟨0, Role.human, true⟩, ⟨7, Role.ai, false⟩], 7, Role.ai,
        [Role.human, Role.ai]⟩ : SendContext)
      (⟨['o', 'k'], false, "none", []⟩ : SendInput)
      ((⟨['o', 'k'], MessageStatus.sent, false, false, "none", none, true⟩ :
          SavedMessage), [7, 0])
      (by decide)⟩

/-- C10: for every accepted send-message, the stored body is the input
text trimmed and truncated to 5000 characters, the stored task description
is trimmed and truncated to 500 characters and stored as null when empty,
and a task-state outside the allowed set is stored as none
(server.js lines 300-322). -/
theorem c10_input_normalization (ctx : SendContext) (inp : SendInput)
    (r : SavedMessage × List Nat) (h : sendMessageHandler ctx inp = some r) :
    r.1.body = (jsTrim inp.text).take 5000
    ∧ r.1.body.length ≤ 5000
    ∧ r.1.taskDescription = (if (jsTrim inp.taskDescription).take 500 = []
        then none else some ((jsTrim inp.taskDescription).take 500))
    ∧ (∀ d, r.1.taskDescription = some d → d.length ≤ 500)
    ∧ (allowedTaskStates.contains inp.taskState = false → r.1.taskState = "none")
    ∧ (allowedTaskStates.contains inp.taskState = true → r.1.taskState = inp.taskState)
    ∧ (r.1.taskState = "none" ∨ r.1.taskState = inp.taskState) := by
  obtain ⟨hroom, -, htext⟩ := sendMessageHandler_accepted h
  rw [sendMessageHandler_eq ctx inp hroom htext, Option.some_inj] at h
  subst h
  refine ⟨rfl, ?_, rfl, ?_, ?_, ?_, ?_⟩
  · simp [List.length_take]
  · intro d hd
    by_cases hempty : (jsTrim inp.taskDescription).take 500 = []
    · simp [hempty] at hd
    · simp only [if_neg hempty, Option.some_inj] at hd
      rw [← hd]
      simp [List.length_take]
  · intro hcontains
    dsimp only
    rw [hcontains]
    simp
  · intro hcontains
    dsimp only
    rw [hcontains]
    simp
  · by_cases hcontains : allowedTaskStates.contains inp.taskState = true
    · right
      dsimp only
      rw [hcontains]
      simp
    · left
      rw [Bool.not_eq_true] at hcontains
      dsimp only
      rw [hcontains]
      simp

/-- Witness for the C10 theorem at a concrete input: text with surrounding
spaces, an unrecognized task state and an all-whitespace task description. -/
theorem c10_input_normalization_witness :
    sendMessageHandler
      (⟨true, false, [⟨0, Role.human, true⟩], 0, Role.human, [Role.human]⟩ : SendContext)
      (⟨[' ', 'h', 'i', ' '], false, "bogus", [' ', ' ']⟩ : SendInput)
      = some ((⟨['h', 'i'], MessageStatus.sent, false, false, "none", none, false⟩ :
          SavedMessage), [0])
    ∧ (((⟨['h', 'i'], MessageStatus.sent, false, false, "none", none, false⟩ :
          SavedMessage), ([0] : List Nat)).1.body = (jsTrim [' ', 'h', 'i', ' ']).take 5000
      ∧ ((((⟨['h', 'i'], MessageStatus.sent, false, false, "none", none, false⟩ :
            SavedMessage), ([0] : List Nat)).1.body.length ≤ 5000)
      ∧ (((⟨['h', 'i'], MessageStatus.sent, false, false, "none", none, false⟩ :
            SavedMessage), ([0] : List Nat)).1.taskDescription
          = (if (jsTrim [' ', ' ']).take 500 = [] then none
             else some ((jsTrim [' ', ' ']).take 500))))) :=
  ⟨by decide,
    (c10_input_normalization
      (⟨true, false, [⟨0, Role.human, true⟩], 0, Role.human, [Role.human]⟩ : SendContext)
      (⟨[' ', 'h', 'i', ' '], false, "bogus", [' ', ' ']⟩ : SendInput)
      ((⟨['h', 'i'], MessageStatus.sent, false, false, "none", none, false⟩ :
          SavedMessage), [0])
      (by decide)).1,
    (c10_input_normalization
      (⟨true, false, [⟨0, Role.human, true⟩], 0, Role.human, [Role.human]⟩ : SendContext)
      (⟨[' ', 'h', 'i', ' '], false, "bogus", [' ', ' ']⟩ : SendInput)
      ((⟨['h', 'i'], MessageStatus.sent, false, false, "none", none, false⟩ :
          SavedMessage), [0])
      (by decide)).2.1,
    (c10_input_normalization
      (⟨true, false, [⟨0, Role.human, true⟩], 0, Role.human, [Role.human]⟩ : SendContext)
      (⟨[' ', 'h', 'i', ' '], false, "bogus", [' ', ' ']⟩ : SendInput)
      ((⟨['h', 'i'], MessageStatus.sent, false, false, "none", none, false⟩ :
          SavedMessage), [0])
      (by decide)).2.2.1⟩

theorem statusRank_le_apply (s : MessageStatus) (e : StatusEvent) :
    statusRank s ≤ statusRank (applyStatusEvent s e) := by
  cases s <;> cases e <;>
    simp [applyStatusEvent, markDeliveredOp, markReadOp, statusRank]

/-- C7, amended.  The original claim says message status moves strictly
forward through sent, delivered, read without skipping, for every event
sequence.  On the code, markRead (src/db.js line 225) is unguarded, so a
read acknowledgement moves a message from sent directly to read, skipping
delivered (see the counterexample).  What does hold: status never
regresses under any sequence of delivery completions and read
acknowledgements (markDelivered only promotes sent to delivered, markRead
only writes the maximal status), and read is only ever reached through an
explicit read acknowledgement event. -/
theorem c7_status_monotonic_amended :
    (∀ (s : MessageStatus) (evs : List StatusEvent),
      statusRank s ≤ statusRank (runStatus s evs))
    ∧ (∀ evs : List StatusEvent,
        runStatus MessageStatus.sent evs = MessageStatus.read →
          StatusEvent.readEvent ∈ evs) := by
  constructor
  · intro s evs
    induction evs generalizing s with
    | nil => simp [runStatus]
    | cons e evs ih =>
      have h1 := statusRank_le_apply s e
      have h2 := ih (applyStatusEvent s e)
      simp only [runStatus, List.foldl_cons] at h2 ⊢
      omega
  · have haux : ∀ (evs : List StatusEvent) (s : MessageStatus),
        s ≠ MessageStatus.read → runStatus s evs = MessageStatus.read →
          StatusEvent.readEvent ∈ evs := by
      intro evs
      induction evs with
      | nil =>
        intro s hs hrun
        exact absurd hrun hs
      | cons e evs ih =>
        intro s hs hrun
        cases e with
        | readEvent => exact List.mem_cons_self _ _
        | deliverEvent =>
          have h2 : applyStatusEvent s StatusEvent.deliverEvent ≠ MessageStatus.read := by
            cases s <;> simp_all [applyStatusEvent, markDeliveredOp]
          simp only [runStatus, List.foldl_cons] at hrun
          exact List.mem_cons_of_mem _ (ih _ h2 hrun)
    intro evs hrun
    exact haux evs MessageStatus.sent (by simp) hrun

/-- C7, counterexample to the claim as stated.  A single batched read
acknowledgement applied to a message still in status sent yields read
directly: the only proper prefix of the sequence is the empty one, whose
status is sent, so the message reaches read without ever being delivered
(markRead, src/db.js line 225, has no status guard). -/
theorem c7_status_monotonic_counterexample :
    runStatus MessageStatus.sent [StatusEvent.readEvent] = MessageStatus.read
    ∧ runStatus MessageStatus.sent [] = MessageStatus.sent
    ∧ runStatus MessageStatus.sent [] ≠ MessageStatus.delivered := by
  refine ⟨rfl, rfl, by decide⟩

/-- Witness for the amended C7 theorem at a concrete input: the sequence
delivery-then-read reaches read and contains a read event. -/
theorem c7_status_monotonic_amended_witness :
    statusRank MessageStatus.sent ≤ statusRank (runStatus MessageStatus.sent
      [StatusEvent.deliverEvent, StatusEvent.readEvent])
    ∧ (runStatus MessageStatus.sent
        [StatusEvent.deliverEvent, StatusEvent.readEvent] = MessageStatus.read
      ∧ StatusEvent.readEvent ∈ [StatusEvent.deliverEvent, StatusEvent.readEvent]) :=
  ⟨c7_status_monotonic_amended.1 MessageStatus.sent
      [StatusEvent.deliverEvent, StatusEvent.readEvent],
    by decide,
    c7_status_monotonic_amended.2
      [StatusEvent.deliverEvent, StatusEvent.readEvent] (by decide)⟩

/-- C8: while pause holds a human message (heldForAi true, not emergency),
the immediate emit list contains the sender and every non-AI recipient but
no AI recipient (server.js lines 335-345); and when pause is toggled off,
the release (server.js lines 211-222) emits one notice listing exactly the
held messages' ids in created-at (send) order, clears every held flag in a
single update, and leaves the message list otherwise unchanged. -/
theorem c8_held_messages (members : List Member) (senderSid : Nat) (senderRole : Role)
    (hnodup : (members.map (fun m => m.sid)).Nodup)
    (hrole : senderRole = Role.human)
    (msgs : List StoredMessage)
    (hsorted : msgs.Pairwise (fun a b => a.createdAt ≤ b.createdAt)) :
    senderSid ∈ sendEmitSids members senderSid senderRole true false
    ∧ (∀ m ∈ members, m.role ≠ Role.ai → m.sid ≠ senderSid →
        m.sid ∈ sendEmitSids members senderSid senderRole true false)
    ∧ (∀ m ∈ members, m.role = Role.ai → m.sid ≠ senderSid →
        m.sid ∉ sendEmitSids members senderSid senderRole true false)
    ∧ (releaseHeldMessages msgs).2
      = (msgs.filter (fun m => m.heldForAi)).map (fun m => m.id)
    ∧ (∀ m ∈ (releaseHeldMessages msgs).1, m.heldForAi = false)
    ∧ (releaseHeldMessages msgs).1.map (fun m => m.id) = msgs.map (fun m => m.id) := by
  subst hrole
  have hshape : sendEmitSids members senderSid Role.human true false
      = senderSid :: ((members.filter (fun m => decide (m.sid ≠ senderSid))).filter
          (fun m => decide (m.role ≠ Role.ai))).map (fun m => m.sid) := by
    simp [sendEmitSids]
  refine ⟨?_, ?_, ?_, ?_, ?_, ?_⟩
  · rw [hshape]
    exact List.mem_cons_self _ _
  · intro m hm hrole2 hsid
    rw [hshape]
    refine List.mem_cons_of_mem _ ?_
    refine List.mem_map.mpr ⟨m, ?_, rfl⟩
    refine List.mem_filter.mpr ⟨List.mem_filter.mpr ⟨hm, by simpa using hsid⟩, ?_⟩
    simpa using hrole2
  · intro m hm hrole2 hsid
    rw [hshape]
    intro hmem
    rcases List.mem_cons.mp hmem with hc | hc
    · exact hsid hc
    · rcases List.mem_map.mp hc with ⟨m2, hm2, hsideq⟩
      rcases List.mem_filter.mp hm2 with ⟨hm2a, hm2role⟩
      rcases List.mem_filter.mp hm2a with ⟨hm2mem, _⟩
      have heqm : m2 = m :=
        List.inj_on_of_nodup_map hnodup hm2mem hm hsideq
      rw [heqm] at hm2role
      simp [hrole2] at hm2role
  · have hfsorted : (msgs.filter (fun m => m.heldForAi)).Pairwise
        (fun a b => a.createdAt ≤ b.createdAt) := hsorted.filter _
    have hsz := sortByKey_eq_self (fun m => m.createdAt)
      (msgs.filter (fun m => m.heldForAi)) hfsorted
    simp only [releaseHeldMessages]
    rw [hsz]
  · intro m hm
    rcases List.mem_map.mp hm with ⟨m2, _, heqm⟩
    by_cases hheld : m2.heldForAi = true
    · rw [← heqm]
      simp [hheld]
    · rw [Bool.not_eq_true] at hheld
      rw [← heqm]
      simp [hheld]
  · simp only [releaseHeldMessages, List.map_map]
    refine List.map_congr_left ?_
    intro m _
    by_cases hheld : m.heldForAi = true
    · simp [hheld]
    · rw [Bool.not_eq_true] at hheld
      simp [hheld]

/-- Witness for the C8 theorem at a concrete input: two AI sockets, one
other human socket, and a message store with two held and one unheld
message. -/
theorem c8_held_messages_witness :
    ((([⟨0, Role.human, true⟩, ⟨1, Role.ai, false⟩, ⟨2, Role.ai, false⟩,
        ⟨3, Role.human, false⟩] : List Member).map (fun m => m.sid)).Nodup
      ∧ ([⟨10, 0, true⟩, ⟨11, 1, false⟩, ⟨12, 2, true⟩] : List StoredMessage).Pairwise
          (fun a b => a.createdAt ≤ b.createdAt))
    ∧ ((0 : Nat) ∈ sendEmitSids [⟨0, Role.human, true⟩, ⟨1, Role.ai, false⟩,
          ⟨2, Role.ai, false⟩, ⟨3, Role.human, false⟩] 0 Role.human true false
      ∧ (∀ m ∈ ([⟨0, Role.human, true⟩, ⟨1, Role.ai, false⟩, ⟨2, Role.ai, false⟩,
            ⟨3, Role.human, false⟩] : List Member), m.role ≠ Role.ai → m.sid ≠ 0 →
          m.sid ∈ sendEmitSids [⟨0, Role.human, true⟩, ⟨1, Role.ai, false⟩,
            ⟨2, Role.ai, false⟩, ⟨3, Role.human, false⟩] 0 Role.human true false)
      ∧ (∀ m ∈ ([⟨0, Role.human, true⟩, ⟨1, Role.ai, false⟩, ⟨2, Role.ai, false⟩,
            ⟨3, Role.human, false⟩] : List Member), m.role = Role.ai → m.sid ≠ 0 →
          m.sid ∉ sendEmitSids [⟨0, Role.human, true⟩, ⟨1, Role.ai, false⟩,
            ⟨2, Role.ai, false⟩, ⟨3, Role.human, false⟩] 0 Role.human true false)
      ∧ (releaseHeldMessages [⟨10, 0, true⟩, ⟨11, 1, false⟩, ⟨12, 2, true⟩]).2
        = (([⟨10, 0, true⟩, ⟨11, 1, false⟩, ⟨12, 2, true⟩] : List StoredMessage).filter
            (fun m => m.heldForAi)).map (fun m => m.id)
      ∧ (∀ m ∈ (releaseHeldMessages
            [⟨10, 0, true⟩, ⟨11, 1, false⟩, ⟨12, 2, true⟩]).1, m.heldForAi = false)
      ∧ (releaseHeldMessages [⟨10, 0, true⟩, ⟨11, 1, false⟩, ⟨12, 2, true⟩]).1.map
            (fun m => m.id)
        = ([⟨10, 0, true⟩, ⟨11, 1, false⟩, ⟨12, 2, true⟩] : List StoredMessage).map
            (fun m => m.id)) :=
  ⟨⟨by decide, by decide⟩,
    c8_held_messages
      [⟨0, Role.human, true⟩, ⟨1, Role.ai, false⟩, ⟨2, Role.ai, false⟩,
       ⟨3, Role.human, false⟩] 0 Role.human (by decide) rfl
      [⟨10, 0, true⟩, ⟨11, 1, false⟩, ⟨12, 2, true⟩] (by decide)⟩

/-- A participants row, src/db.js lines 21-33: persistent client id,
current socket id, role, display name, primary-human flag, online flag.
Timestamp columns do not affect any claim and are omitted. -/
structure Participant where
  clientId : Nat
  socketId : Nat
  role : Role
  displayName : String
  isPrimaryHuman : Bool
  online : Bool
deriving DecidableEq, Repr

/-- hasPrimaryHuman, src/db.js lines 212-218: whether the room has a
participant with role human and is_primary_human true. -/
def hasPrimaryHuman (store : List Participant) : Bool :=
  store.any (fun p => decide (p.role = Role.human) && p.isPrimaryHuman)

/-- upsertParticipant, src/db.js lines 175-189: insert a new row, or on a
room/client-id conflict update socket id, display name and online state
while keeping the stored role and primary flag (the ON CONFLICT clause
sets role = participants.role and
is_primary_human = participants.is_primary_human). -/
def upsertParticipant (store : List Participant) (p : Participant) : List Participant :=
  if store.any (fun q => decide (q.clientId = p.clientId)) then
    store.map (fun q =>
      if q.clientId = p.clientId then
        { q with socketId := p.socketId, displayName := p.displayName, online := true }
      else q)
  else store ++ [{ p with online := true }]

/-- Display name assigned at first send, server.js lines 275-277. -/
def assignedDisplayName (role : Role) (isPrimaryHuman : Bool) (clientId : Nat) : String :=
  (if role = Role.human then (if isPrimaryHuman then "MainHuman-" else "Human-")
   else "AI-") ++ toString clientId

/-- Progress of one unbound connection's first-send binding (server.js
lines 267-298): before the awaited hasPrimaryHuman read, after that read
holding the locally computed primary flag, or after the upsert. -/
inductive BindPhase where
  | unstarted
  | checked (assignedPrimaryHuman : Bool)
  | bound
deriving DecidableEq, Repr

/-- One in-flight first-send binding: the connection's fresh client id
(collision-checked against the store by the loop on server.js
lines 268-271), its socket id, its role, and its progress. -/
structure FirstSendTask where
  clientId : Nat
  socketId : Nat
  role : Role
  phase : BindPhase
deriving DecidableEq, Repr

/-- The participant store together with in-flight first-send bindings. -/
structure BindSystem where
  store : List Participant
  tasks : List FirstSendTask
deriving DecidableEq, Repr

/-- Advance the i-th first-send binding by one awaited step.  The first
step is the hasPrimaryHuman read of server.js line 274, computing the
local assignedPrimaryHuman value; the second step runs upsertParticipant
(lines 279-286) with that possibly stale local value.  Another handler may
interleave between the two steps, which is exactly the suspension-point
granularity of the awaited store calls. -/
def bindStep (sys : BindSystem) (i : Nat) : BindSystem :=
  match sys.tasks[i]? with
  | none => sys
  | some t =>
    match t.phase with
    | .unstarted =>
      let assigned := decide (t.role = Role.human) && !(hasPrimaryHuman sys.store)
      { sys with tasks := sys.tasks.set i { t with phase := BindPhase.checked assigned } }
    | .checked assigned =>
      { store := upsertParticipant sys.store
          { clientId := t.clientId, socketId := t.socketId, role := t.role,
            displayName := assignedDisplayName t.role assigned t.clientId,
            isPrimaryHuman := assigned, online := true },
        tasks := sys.tasks.set i { t with phase := BindPhase.bound } }
    | .bound => sys

/-- Run a schedule of interleaved binding steps. -/
def bindRun (sys : BindSystem) (schedule : List Nat) : BindSystem :=
  schedule.foldl bindStep sys

/-- The client ids currently holding primary-human in the store. -/
def primaryClientIds (store : List Participant) : List Nat :=
  (store.filter (fun p => decide (p.role = Role.human) && p.isPrimaryHuman)).map
    (fun p => p.clientId)

/-- A first-send binding executed with no interleaving between its
hasPrimaryHuman read and its upsert. -/
def atomicFirstSendBind (store : List Participant) (clientId socketId : Nat)
    (role : Role) : List Participant :=
  let assigned := decide (role = Role.human) && !(hasPrimaryHuman store)
  upsertParticipant store
    { clientId := clientId, socketId := socketId, role := role,
      displayName := assignedDisplayName role assigned clientId,
      isPrimaryHuman := assigned, online := true }

/-- Parameters of one first-send binding. -/
structure BindRequest where
  clientId : Nat
  socketId : Nat
  role : Role
deriving DecidableEq, Repr

/-- Run a sequence of non-interleaved first-send bindings. -/
def bindAll (store : List Participant) (binds : List BindRequest) : List Participant :=
  binds.foldl (fun st b => atomicFirstSendBind st b.clientId b.socketId b.role) store

/-- The client id of the first human bind in a sequence, as a list
(empty when no human ever binds). -/
def firstHumanClientIds (binds : List BindRequest) : List Nat :=
  ((binds.find? (fun b => decide (b.role = Role.human))).map
    (fun b => b.clientId)).toList

theorem primaryClientIds_append (s1 s2 : List Participant) :
    primaryClientIds (s1 ++ s2) = primaryClientIds s1 ++ primaryClientIds s2 := by
  simp [primaryClientIds, List.filter_append]

theorem hasPrimaryHuman_eq_false_iff (store : List Participant) :
    hasPrimaryHuman store = false ↔ primaryClientIds store = [] := by
  constructor
  · intro h
    have h2 : ∀ p ∈ store, ¬((decide (p.role = Role.human) && p.isPrimaryHuman) = true) := by
      intro p hp hpred
      have : hasPrimaryHuman store = true := by
        simp [hasPrimaryHuman, List.any_eq_true]
        rcases Bool.and_eq_true _ _ ▸ hpred with ⟨hr, hpr⟩
        exact ⟨p, hp, by simpa using hr, hpr⟩
      rw [h] at this
      cases this
    simp [primaryClientIds]
    intro p hp
    have := h2 p hp
    simpa using this
  · intro h
    by_contra hc
    rw [Bool.not_eq_false] at hc
    simp [hasPrimaryHuman, List.any_eq_true] at hc
    rcases hc with ⟨p, hp, hr, hpr⟩
    have : p.clientId ∈ primaryClientIds store := by
      simp [primaryClientIds, List.mem_map, List.mem_filter]
      exact ⟨p, ⟨hp, hr, hpr⟩, rfl⟩
    rw [h] at this
    cases this

theorem primaryClientIds_map (f : Participant → Participant)
    (hrole : ∀ q, (f q).role = q.role)
    (hprim : ∀ q, (f q).isPrimaryHuman = q.isPrimaryHuman)
    (hcid : ∀ q, (f q).clientId = q.clientId) :
    ∀ store : List Participant,
      primaryClientIds (store.map f) = primaryClientIds store := by
  intro store
  induction store with
  | nil => rfl
  | cons q store ih =>
    simp only [List.map_cons, primaryClientIds, List.filter_cons] at ih ⊢
    rw [hrole q, hprim q]
    by_cases hpred : (decide (q.role = Role.human) && q.isPrimaryHuman) = true
    · simp only [hpred, if_true, List.map_cons, hcid q]
      rw [ih]
    · rw [Bool.not_eq_true] at hpred
      simp only [hpred, Bool.false_eq_true, if_false]
      exact ih

theorem upsertParticipant_conflict_primary (store : List Participant) (p : Participant)
    (hconf : store.any (fun q => decide (q.clientId = p.clientId)) = true) :
    primaryClientIds (upsertParticipant store p) = primaryClientIds store := by
  rw [upsertParticipant, if_pos hconf]
  refine primaryClientIds_map _ ?_ ?_ ?_ store <;>
    intro q <;> by_cases hq : q.clientId = p.clientId <;> simp [hq]

/-- The row inserted by a fresh (collision-free) first-send binding. -/
def bindInsertRow (store : List Participant) (b : BindRequest) : Participant :=
  { clientId := b.clientId
    socketId := b.socketId
    role := b.role
    displayName := assignedDisplayName b.role
      (decide (b.role = Role.human) && !(hasPrimaryHuman store)) b.clientId
    isPrimaryHuman := decide (b.role = Role.human) && !(hasPrimaryHuman store)
    online := true }

theorem atomicFirstSendBind_fresh (store : List Participant) (b : BindRequest)
    (hnoconf : ¬(store.any (fun q => decide (q.clientId = b.clientId)) = true)) :
    atomicFirstSendBind store b.clientId b.socketId b.role
      = store ++ [bindInsertRow store b] := by
  rw [atomicFirstSendBind, upsertParticipant, if_neg hnoconf]
  rfl

theorem primaryClientIds_insertRow (store : List Participant) (b : BindRequest) :
    primaryClientIds [bindInsertRow store b]
      = (if (decide (b.role = Role.human) && !(hasPrimaryHuman store)) = true
         then [b.clientId] else []) := by
  by_cases h : (decide (b.role = Role.human) && !(hasPrimaryHuman store)) = true
  · have h2 : b.role = Role.human ∧ hasPrimaryHuman store = false := by simpa using h
    simp [primaryClientIds, bindInsertRow, h, h2.1, h2.2]
  · rw [Bool.not_eq_true] at h
    simp [primaryClientIds, bindInsertRow, h]

theorem hasPrimaryHuman_append_insertRow (store : List Participant) (b : BindRequest) :
    hasPrimaryHuman (store ++ [bindInsertRow store b])
      = (hasPrimaryHuman store
          || (decide (b.role = Role.human) && !(hasPrimaryHuman store))) := by
  simp [hasPrimaryHuman, List.any_append, bindInsertRow]

theorem bindAll_primary :
    ∀ (binds : List BindRequest) (store : List Participant),
      (∀ b ∈ binds, store.any (fun q => decide (q.clientId = b.clientId)) = false) →
      (binds.map (fun b => b.clientId)).Nodup →
      primaryClientIds (bindAll store binds)
        = primaryClientIds store
          ++ (if hasPrimaryHuman store = true then [] else firstHumanClientIds binds) := by
  intro binds
  induction binds with
  | nil =>
    intro store _ _
    simp [bindAll, firstHumanClientIds]
  | cons b rest ih =>
    intro store hfresh hnodup
    have hbfresh : store.any (fun q => decide (q.clientId = b.clientId)) = false :=
      hfresh b (List.mem_cons_self _ _)
    have hnoconf : ¬(store.any (fun q => decide (q.clientId = b.clientId)) = true) := by
      rw [hbfresh]
      simp
    have hstep := atomicFirstSendBind_fresh store b hnoconf
    have hnodup2 : b.clientId ∉ rest.map (fun b2 => b2.clientId)
        ∧ (rest.map (fun b2 => b2.clientId)).Nodup := by
      rw [List.map_cons] at hnodup
      exact List.nodup_cons.mp hnodup
    have hrestnodup := hnodup2.2
    have hbnotin := hnodup2.1
    have hrestfresh : ∀ b2 ∈ rest,
        (store ++ [bindInsertRow store b]).any
          (fun q => decide (q.clientId = b2.clientId)) = false := by
      intro b2 hb2
      rw [List.any_append]
      have h1 : store.any (fun q => decide (q.clientId = b2.clientId)) = false :=
        hfresh b2 (List.mem_cons_of_mem _ hb2)
      have h2 : b.clientId ≠ b2.clientId := by
        intro hc
        apply hbnotin
        rw [hc]
        exact List.mem_map.mpr ⟨b2, hb2, rfl⟩
      simp [h1, bindInsertRow, h2]
    have hihstep := ih (store ++ [bindInsertRow store b]) hrestfresh hrestnodup
    rw [bindAll] at hihstep ⊢
    simp only [List.foldl_cons]
    rw [hstep]
    rw [hihstep, primaryClientIds_append, primaryClientIds_insertRow,
      hasPrimaryHuman_append_insertRow]
    by_cases hrole : b.role = Role.human
    · by_cases hhp : hasPrimaryHuman store = true
      · simp [hrole, hhp]
      · rw [Bool.not_eq_true] at hhp
        have hempty : primaryClientIds store = [] :=
          (hasPrimaryHuman_eq_false_iff store).mp hhp
        simp [hrole, hhp, hempty, firstHumanClientIds, List.find?_cons]
    · by_cases hhp : hasPrimaryHuman store = true
      · simp [hrole, hhp, firstHumanClientIds, List.find?_cons]
      · rw [Bool.not_eq_true] at hhp
        simp [hrole, hhp, firstHumanClientIds, List.find?_cons]

/-- C2, counterexample to the claim as stated.  Two unbound human
connections (fresh client ids 10 and 20) run their first send
concurrently and interleave at the awaited store calls: both
hasPrimaryHuman reads (server.js line 274) see a store with no primary
human, so both upserts (lines 279-286) write is_primary_human = TRUE and
the room ends with two primary humans. -/
theorem c2_primary_human_counterexample :
    (primaryClientIds (bindRun
      ⟨[], [⟨10, 100, Role.human, BindPhase.unstarted⟩,
            ⟨20, 200, Role.human, BindPhase.unstarted⟩]⟩
      [0, 1, 0, 1]).store).length = 2 := by decide

/-- C2, amended.  The original claim asserts at-most-one primary human in
every reachable state even when two first-send bindings interleave between
the hasPrimaryHuman check and the upsert; the counterexample shows that
interleaving produces two primary humans, because the handler never
re-validates after resuming.  What does hold, for first-send bindings that
do not interleave between their two store calls (fresh, pairwise distinct
client ids, as enforced by the collision-check loop): at most one
participant ever holds primary-human; starting from an empty room it is
exactly the first human identity ever bound; and a reconnect upsert for an
existing client id never changes the primary-human assignment
(ON CONFLICT keeps the stored flag). -/
theorem c2_primary_human_amended (binds : List BindRequest) (store : List Participant)
    (hfresh : ∀ b ∈ binds, store.any (fun q => decide (q.clientId = b.clientId)) = false)
    (hnodup : (binds.map (fun b => b.clientId)).Nodup)
    (hone : (primaryClientIds store).length ≤ 1) :
    (primaryClientIds (bindAll store binds)).length ≤ 1
    ∧ primaryClientIds (bindAll [] binds) = firstHumanClientIds binds
    ∧ (∀ st : List Participant, ∀ p : Participant,
        st.any (fun q => decide (q.clientId = p.clientId)) = true →
        primaryClientIds (upsertParticipant st p) = primaryClientIds st) := by
  refine ⟨?_, ?_, fun st p h => upsertParticipant_conflict_primary st p h⟩
  · rw [bindAll_primary binds store hfresh hnodup]
    by_cases hhp : hasPrimaryHuman store = true
    · simpa [hhp] using hone
    · rw [Bool.not_eq_true] at hhp
      have hempty : primaryClientIds store = [] :=
        (hasPrimaryHuman_eq_false_iff store).mp hhp
      rw [hempty, hhp]
      simp [firstHumanClientIds]
      cases binds.find? (fun b => decide (b.role = Role.human)) <;> simp
  · have hfresh2 : ∀ b ∈ binds,
        ([] : List Participant).any (fun q => decide (q.clientId = b.clientId)) = false := by
      intro b _
      rfl
    rw [bindAll_primary binds [] hfresh2 hnodup]
    simp [primaryClientIds, hasPrimaryHuman]

/-- Witness for the amended C2 theorem at a concrete input: an AI binds
first, then two humans; only the first human (client id 20) becomes
primary. -/
theorem c2_primary_human_amended_witness :
    ((∀ b ∈ ([⟨10, 100, Role.ai⟩, ⟨20, 200, Role.human⟩, ⟨30, 300, Role.human⟩] :
          List BindRequest),
        ([] : List Participant).any (fun q => decide (q.clientId = b.clientId)) = false)
      ∧ (([⟨10, 100, Role.ai⟩, ⟨20, 200, Role.human⟩, ⟨30, 300, Role.human⟩] :
          List BindRequest).map (fun b => b.clientId)).Nodup
      ∧ (primaryClientIds ([] : List Participant)).length ≤ 1)
    ∧ ((primaryClientIds (bindAll []
          [⟨10, 100, Role.ai⟩, ⟨20, 200, Role.human⟩, ⟨30, 300, Role.human⟩])).length ≤ 1
      ∧ primaryClientIds (bindAll []
          [⟨10, 100, Role.ai⟩, ⟨20, 200, Role.human⟩, ⟨30, 300, Role.human⟩])
        = firstHumanClientIds
            [⟨10, 100, Role.ai⟩, ⟨20, 200, Role.human⟩, ⟨30, 300, Role.human⟩]
      ∧ (∀ st : List Participant, ∀ p : Participant,
          st.any (fun q => decide (q.clientId = p.clientId)) = true →
          primaryClientIds (upsertParticipant st p) = primaryClientIds st)) :=
  ⟨⟨by decide, by decide, by decide⟩,
    c2_primary_human_amended
      [⟨10, 100, Role.ai⟩, ⟨20, 200, Role.human⟩, ⟨30, 300, Role.human⟩] []
      (by decide) (by decide) (by decide)⟩

/-- Per-connection socket.data as far as the permission guards go: socket
id, role, bound client id (none before the first send), and the cached
isPrimaryHuman flag (server.js lines 141-149 and 288-290). -/
structure ConnData where
  sid : Nat
  role : Role
  clientId : Option Nat
  isPrimaryHuman : Bool
deriving DecidableEq, Repr

/-- Server state for the permission-guard claims: the participant store,
the per-connection socket data, and the room state that toggle-pause-ai
and start-interject mutate (pause flag, interject flag, pending-delay
list, held messages). -/
structure GuardState where
  store : List Participant
  conns : List ConnData
  pauseAi : Bool
  interjectActive : Bool
  pendingDelayIds : List Nat
  heldIds : List Nat
deriving DecidableEq, Repr

/-- Events relevant to the permission guards. -/
inductive GuardEvent where
  | joinRoom (sid : Nat) (role : Role) (suppliedClientId : Option Nat)
  | firstSendBind (sid : Nat) (freshClientId : Nat)
  | togglePause (sid : Nat) (value : Bool)
  | startInterject (sid : Nat)
deriving DecidableEq, Repr

/-- Observable emissions of the guard handlers. -/
inductive GuardAction where
  | chatErrorPausePermission
  | pauseUpdated (value : Bool)
  | releaseHeld (ids : List Nat)
  | interjectStarted
deriving DecidableEq, Repr

/-- getParticipantByClient, src/db.js lines 167-173. -/
def lookupParticipant (store : List Participant) (cid : Nat) : Option Participant :=
  store.find? (fun p => decide (p.clientId = cid))

/-- Record the socket.data of a connection, replacing any previous record
for the same socket id. -/
def setConn (conns : List ConnData) (c : ConnData) : List ConnData :=
  if conns.any (fun q => decide (q.sid = c.sid)) then
    conns.map (fun q => if q.sid = c.sid then c else q)
  else conns ++ [c]

/-- One guard-relevant handler as an atomic transition.

joinRoom (server.js lines 122-179): resolve a supplied client id against
the store; the effective role is the stored one when the participant
exists; socket.data.isPrimaryHuman is set to the stored flag for an
existing participant and otherwise provisionally to whether the room has
no primary human yet (lines 137-139); an existing participant is
re-upserted as online.

firstSendBind (server.js lines 267-298): an unbound connection binds a
fresh client id, here as one atomic step (C2 studies its interleavings).

togglePause (server.js lines 199-227): denied with a chat-error unless
socket.data.isPrimaryHuman; otherwise sets the pause flag and, when
turning pause off, releases the held messages with a single notice.

startInterject (server.js lines 229-258): silently ignored unless the
socket's role is human and socket.data.isPrimaryHuman; otherwise sets
interject-active and empties the pending-delay list (the flush itself is
studied on the routing model). -/
def guardStep (s : GuardState) : GuardEvent → GuardState × List GuardAction
  | .joinRoom sid role supplied =>
    let existing := supplied.bind (fun cid => lookupParticipant s.store cid)
    let safeRole := match existing with
      | some p => p.role
      | none => role
    let isPrimary := decide (safeRole = Role.human) &&
      (match existing with
       | some p => p.isPrimaryHuman
       | none => !(hasPrimaryHuman s.store))
    let conn : ConnData :=
      { sid := sid
        role := safeRole
        clientId := match existing with
          | some p => some p.clientId
          | none => supplied
        isPrimaryHuman := isPrimary }
    let store1 := match existing with
      | some p => upsertParticipant s.store
          { clientId := p.clientId
            socketId := sid
            role := safeRole
            displayName := p.displayName
            isPrimaryHuman := p.isPrimaryHuman
            online := true }
      | none => s.store
    ({ s with store := store1, conns := setConn s.conns conn }, [])
  | .firstSendBind sid freshCid =>
    match s.conns.find? (fun q => decide (q.sid = sid)) with
    | none => (s, [])
    | some c =>
      match c.clientId with
      | some _ => (s, [])
      | none =>
        let assigned := decide (c.role = Role.human) && !(hasPrimaryHuman s.store)
        ({ s with
            store := atomicFirstSendBind s.store freshCid sid c.role,
            conns := setConn s.conns
              { c with clientId := some freshCid, isPrimaryHuman := assigned } }, [])
  | .togglePause sid value =>
    match s.conns.find? (fun q => decide (q.sid = sid)) with
    | none => (s, [GuardAction.chatErrorPausePermission])
    | some c =>
      if c.isPrimaryHuman then
        ({ s with pauseAi := value, heldIds := if value then s.heldIds else [] },
         GuardAction.pauseUpdated value ::
           (if value then []
            else if s.heldIds.isEmpty then [] else [GuardAction.releaseHeld s.heldIds]))
      else (s, [GuardAction.chatErrorPausePermission])
  | .startInterject sid =>
    match s.conns.find? (fun q => decide (q.sid = sid)) with
    | none => (s, [])
    | some c =>
      if decide (c.role = Role.human) && c.isPrimaryHuman then
        ({ s with interjectActive := true, pendingDelayIds := [] },
         [GuardAction.interjectStarted])
      else (s, [])

/-- Run a sequence of guard events, collecting the emitted actions. -/
def guardRun (s : GuardState) : List GuardEvent → GuardState × List GuardAction
  | [] => (s, [])
  | e :: es =>
    let step := guardStep s e
    let rest := guardRun step.1 es
    (rest.1, step.2 ++ rest.2)

/-- C3, counterexample to the claim as stated.  Human connection 1 joins
an empty room and gets a provisional socket.data.isPrimaryHuman = true
(server.js lines 137-139, no participant bound).  Human connection 2 joins
(also provisional true) and then binds on first send as the room's actual
primary-human participant, client id 20.  Connection 1 was never bound to
any participant — so in particular it does not belong to the primary-human
participant — yet its start-interject request passes the guard (which only
tests the cached flag, server.js line 230) and mutates room state, setting
interject-active. -/
theorem c3_guard_counterexample :
    (guardRun (⟨[], [], false, false, [], []⟩ : GuardState)
        [GuardEvent.joinRoom 1 Role.human none,
         GuardEvent.joinRoom 2 Role.human none,
         GuardEvent.firstSendBind 2 20]).1.interjectActive = false
    ∧ ((guardRun (⟨[], [], false, false, [], []⟩ : GuardState)
        [GuardEvent.joinRoom 1 Role.human none,
         GuardEvent.joinRoom 2 Role.human none,
         GuardEvent.firstSendBind 2 20]).1.conns.find?
          (fun q => decide (q.sid = 1)))
      = some ⟨1, Role.human, none, true⟩
    ∧ primaryClientIds (guardRun (⟨[], [], false, false, [], []⟩ : GuardState)
        [GuardEvent.joinRoom 1 Role.human none,
         GuardEvent.joinRoom 2 Role.human none,
         GuardEvent.firstSendBind 2 20]).1.store = [20]
    ∧ (guardRun (⟨[], [], false, false, [], []⟩ : GuardState)
        [GuardEvent.joinRoom 1 Role.human none,
         GuardEvent.joinRoom 2 Role.human none,
         GuardEvent.firstSendBind 2 20,
         GuardEvent.startInterject 1]).1.interjectActive = true := by
  refine ⟨by decide, by decide, by decide, by decide⟩

/-- C3, amended.  The original claim keys the permission on belonging to
the room's primary-human participant; the code keys it on the cached
socket.data.isPrimaryHuman flag, which is provisionally true for a human
connection that joined while no primary human existed, even before and
after another connection binds as the actual primary (counterexample).
What does hold: a toggle-pause request from a connection whose cached flag
is false (or from an unknown connection) is answered with an explicit
chat-error and mutates nothing; a start-interject request from a
connection whose cached flag is false, or whose role is not human, or
which is unknown, is silently ignored and mutates nothing. -/
theorem c3_guard_amended (s : GuardState) (sid : Nat) (value : Bool) :
    (∀ c, s.conns.find? (fun q => decide (q.sid = sid)) = some c →
      c.isPrimaryHuman = false →
      guardStep s (GuardEvent.togglePause sid value)
        = (s, [GuardAction.chatErrorPausePermission])
      ∧ guardStep s (GuardEvent.startInterject sid) = (s, []))
    ∧ (∀ c, s.conns.find? (fun q => decide (q.sid = sid)) = some c →
      c.role ≠ Role.human →
      guardStep s (GuardEvent.startInterject sid) = (s, []))
    ∧ (s.conns.find? (fun q => decide (q.sid = sid)) = none →
      guardStep s (GuardEvent.togglePause sid value)
        = (s, [GuardAction.chatErrorPausePermission])
      ∧ guardStep s (GuardEvent.startInterject sid) = (s, [])) := by
  refine ⟨?_, ?_, ?_⟩
  · intro c hfind hflag
    constructor
    · simp [guardStep, hfind, hflag]
    · simp [guardStep, hfind, hflag]
  · intro c hfind hrole
    simp [guardStep, hfind, hrole]
  · intro hfind
    constructor <;> simp [guardStep, hfind]

/-- Witness for the amended C3 theorem at a concrete input: a room whose
primary participant is client 20 on socket 2, and a bound non-primary
human connection on socket 5 whose pause and interject requests are
denied without mutation. -/
theorem c3_guard_amended_witness :
    ((⟨[⟨20, 2, Role.human, "MainHuman-20", true, true⟩,
        ⟨50, 5, Role.human, "Human-50", false, true⟩],
       [⟨2, Role.human, some 20, true⟩, ⟨5, Role.human, some 50, false⟩],
       true, false, [7], [8]⟩ : GuardState).conns.find?
        (fun q => decide (q.sid = 5)) = some ⟨5, Role.human, some 50, false⟩
    ∧ ConnData.isPrimaryHuman ⟨5, Role.human, some 50, false⟩ = false)
    ∧ (guardStep (⟨[⟨20, 2, Role.human, "MainHuman-20", true, true⟩,
          ⟨50, 5, Role.human, "Human-50", false, true⟩],
         [⟨2, Role.human, some 20, true⟩, ⟨5, Role.human, some 50, false⟩],
         true, false, [7], [8]⟩ : GuardState) (GuardEvent.togglePause 5 false)
        = ((⟨[⟨20, 2, Role.human, "MainHuman-20", true, true⟩,
            ⟨50, 5, Role.human, "Human-50", false, true⟩],
           [⟨2, Role.human, some 20, true⟩, ⟨5, Role.human, some 50, false⟩],
           true, false, [7], [8]⟩ : GuardState),
          [GuardAction.chatErrorPausePermission])
      ∧ guardStep (⟨[⟨20, 2, Role.human, "MainHuman-20", true, true⟩,
          ⟨50, 5, Role.human, "Human-50", false, true⟩],
         [⟨2, Role.human, some 20, true⟩, ⟨5, Role.human, some 50, false⟩],
         true, false, [7], [8]⟩ : GuardState) (GuardEvent.startInterject 5)
        = ((⟨[⟨20, 2, Role.human, "MainHuman-20", true, true⟩,
            ⟨50, 5, Role.human, "Human-50", false, true⟩],
           [⟨2, Role.human, some 20, true⟩, ⟨5, Role.human, some 50, false⟩],
           true, false, [7], [8]⟩ : GuardState), [])) :=
  ⟨⟨by decide, rfl⟩,
    (c3_guard_amended
      (⟨[⟨20, 2, Role.human, "MainHuman-20", true, true⟩,
         ⟨50, 5, Role.human, "Human-50", false, true⟩],
        [⟨2, Role.human, some 20, true⟩, ⟨5, Role.human, some 50, false⟩],
        true, false, [7], [8]⟩ : GuardState) 5 false).1
      ⟨5, Role.human, some 50, false⟩ (by decide) rfl⟩

end AladdinChat
